import Mathlib

/-!
# Sonar bot control protocol: `sonar-client/lib/bots.js`

A shallow embedding of the classes `Bots` (registry, dispatcher, reply emitter)
and `Bot` (lifecycle controller) of `sonar-client/lib/bots.js`.

* JavaScript objects that the code mutates (`Bots`, `Bot`) are records that are
  passed through every routine; a routine returns the record it leaves behind.
* Every call that leaves the module (the control channel `client.fetch`,
  `client.openCollection`, the caller supplied handlers, the session
  capabilities, the error log) is recorded, in order, in a list of `Call`s.
* An awaited promise settles with a value, settles with an error, or never
  settles; `Outcome` has one constructor for each.
* External calls are taken to settle: their answers are `Except String _` values
  supplied by the `World` (transport, collections) or by the handler functions
  stored in the bot.  The only promise of the module that can stay pending is
  `Bot.opening`.
* A failure is an error that carries a `message`, the string of `Outcome.throw`
  and of `Except.error`.  A collaborator that rejects with a value without a
  `message`, or with `undefined` or `null`, is outside the routines below;
  what the `catch` of lines 112-118 does with such a value is `Bots.innerCatchOf`.
* `Bots._onmessage` and the routines of `Bot` are run to completion, one event
  after the other.  The interleavings of several events in flight matter for
  `Bot.open` only; they are the subject of the machine `OpenSys`, built from
  the same pieces as `Bot.open`.
* `Bots.register` and `Bots._initListener` are run to completion as well; the
  creation of the `EventSource` is a call that does not fail.  The message
  listeners take `JSON.parse` as a parameter.
-/

namespace Sonar

/-! ## Values -/

/-- JSON-like JavaScript values carried by events and replies. -/
inductive Val where
  | undefined
  | null
  | bool (b : Bool)
  | num (n : Int)
  | str (s : String)
  | obj (fields : List (String × Val))

/-- Settlement of an awaited promise: fulfilled with `a`, rejected with an error
whose `message` is `msg`, or never settled. -/
inductive Outcome (α : Type) where
  | ok (a : α)
  | throw (msg : String)
  | pending

/-- Truthiness of a string-or-undefined JavaScript value: `undefined` and the
empty string are falsy. -/
def truthy : Option String → Bool
  | none => false
  | some s => decide (s ≠ "")

/-- Body `{ requestId, error, result }` of `POST /bot/reply` (lines 81-85).
An absent `requestId` or `result` is `Val.undefined`, an absent `error` is `none`. -/
structure Reply where
  requestId : Val
  error : Option String
  result : Val

/-- The `spec` object of a bot: its `name` and optional `types`. -/
structure BotSpec where
  name : String
  types : Option (List String)

/-- Request bodies sent over the control channel. -/
inductive Body where
  | none
  | reply (r : Reply)
  | announce (spec : BotSpec)

/-- Calls that leave the module, as they are logged in execution order. -/
inductive Call where
  /-- The call `this.client.fetch(url, { method, headers, body })`. -/
  | fetch (url method : String) (headers : List (String × String)) (body : Body)
  /-- The call `this.client.openCollection(keyOrName)`. -/
  | openCollection (keyOrName : Option String)
  /-- The call `collection.putType(typeSpec)`. -/
  | putType (collection : Nat) (typeSpec : String)
  /-- The call `this.handlers.open()`. -/
  | handlerOpen
  /-- The call `this.handlers.onjoin(collection, config)`. -/
  | handlerOnjoin (collection : Nat) (config : Val)
  /-- The call `this.handlers.oncommand(command, args)`. -/
  | handlerOncommand (command args : Val)
  /-- The call `session.open()`. -/
  | sessionOpen (sid : Nat)
  /-- The call `session.close()`. -/
  | sessionClose (sid : Nat)
  /-- The call `session.oncommand(command, args)`. -/
  | sessionOncommand (sid : Nat) (command args : Val)
  /-- The call `collection.subscribe(channel, session.onrecord)`. -/
  | subscribe (collection : Nat) (channel : String) (sid : Nat)
  /-- The call `this.log.error({ message, err })`. -/
  | logError (message : String)
  /-- The call `new EventSource(path, { headers })`, which opens the push stream. -/
  | eventSource (path : String) (headers : List (String × String))

/-! ## Collaborators -/

/-- A `Collection` object as the bot code uses it: its identity as an object,
its immutable `key`, its `name`, `schema.hasType` and the answer of `putType`. -/
structure Collection where
  oid : Nat
  key : String
  name : String
  hasType : String → Bool
  putType : String → Except String Unit

/-- The session value returned by an `onjoin` handler.  `sid` is its identity;
`open`, `close`, `onrecord` and `oncommand` are its optional capabilities, each
given by the answer it produces when called. -/
structure Session where
  sid : Nat
  «open» : Option (Except String Unit)
  close : Option (Except String Unit)
  onrecord : Bool
  oncommand : Option (Val → Val → Except String Val)

/-- The handler set given to `register`.  `open` is optional and takes no
argument: its answer is indexed by the number of earlier invocations on this
bot.  `onjoin` and `oncommand` are functions of their arguments. -/
structure Handlers where
  «open» : Option (Nat → Except String Unit)
  onjoin : Collection → Val → Except String Session
  oncommand : Val → Val → Except String Val

/-- What lies outside the module during one event: collection resolution, the
control channel, and the value of the global identifier `env`, which
`Bot.oncommand` reads on line 226 although `bots.js` binds no such name
(`none`: the global object has no property `env`, as in Node); and, for
`Bots._initListener`, `client.endpoint` and `client.getAuthHeaders()`. -/
structure World where
  openCollection : Option String → Except String Collection
  fetch : String → String → List (String × String) → Body → Except String Val
  env : Option Val
  endpoint : String
  authHeaders : List (String × String)

/-! ## State -/

/-- Key of a JavaScript `Map`: a string or an object (by identity). -/
inductive MapKey where
  | str (s : String)
  | obj (oid : Nat)
  deriving DecidableEq

/-- State of the promise stored in `Bot.opening`. -/
inductive Promise where
  | pending
  | resolved
  deriving DecidableEq

/-- `Map.prototype.get` on an insertion ordered association list. -/
def mapGet {β : Type} : List (String × β) → String → Option β
  | [], _ => none
  | (k, v) :: rest, key => if k = key then some v else mapGet rest key

/-- `Map.prototype.set`: replaces the value of an existing key in place,
appends a new key otherwise. -/
def mapSet {β : Type} : List (String × β) → String → β → List (String × β)
  | [], key, val => [(key, val)]
  | (k, v) :: rest, key, val =>
    if k = key then (k, val) :: rest else (k, v) :: mapSet rest key val

/-- A `Bot` object (constructor, lines 163-172).  `sessions` only ever receives
string keys (its single write is line 199, under `collection.key`).
`opening` is `none` while the property is undefined.  `openCalls` counts the
invocations of `handlers.open` made so far; it is not a property of the
JavaScript object. -/
structure Bot where
  spec : BotSpec
  config : Val
  handlers : Handlers
  sessions : List (String × Session)
  opened : Bool
  opening : Option Promise
  openCalls : Nat

/-- The constructor `new Bot({ spec, config, handlers, client })`. -/
def Bot.new (spec : BotSpec) (config : Val) (handlers : Handlers) : Bot :=
  { spec := spec, config := config, handlers := handlers, sessions := [],
    opened := false, opening := none, openCalls := 0 }

/-- The property `bot.name` (`this.name = spec.name`). -/
def Bot.name (b : Bot) : String := b.spec.name

/-- The lookup `this.sessions.get(k)`: an object key is never equal to one of
the string keys of the map. -/
def Bot.sessionsGet (b : Bot) : MapKey → Option Session
  | .str s => mapGet b.sessions s
  | .obj _ => none

/-- A `Bots` object (constructor, lines 6-10, plus the properties `_sessionId`
and `_init` set by `register` and `_initListener`). -/
structure Bots where
  bots : List (String × Bot)
  _sessionId : Option String
  _init : Bool

/-- The parsed `data` of an inbound event. -/
structure EventData where
  collection : Option String
  config : Val
  command : Val
  args : Val

/-- A parsed inbound event `{ bot, op, data, requestId }`. -/
structure Message where
  bot : String
  op : String
  data : EventData
  requestId : Val

/-! ## Effectful routines -/

/-- Result of running a routine: how it settled, the state it left, and the
calls it made. -/
structure Ran (σ α : Type) where
  outcome : Outcome α
  state : σ
  calls : List Call

/-- An async routine over the mutable state `σ`. -/
def M (σ α : Type) : Type := σ → Ran σ α

/-- Immediate return of a value. -/
def M.pure {σ α : Type} (a : α) : M σ α := fun s => ⟨.ok a, s, []⟩

/-- Sequencing (`await m; f`): the rest runs only if `m` is fulfilled. -/
def M.bind {σ α β : Type} (m : M σ α) (f : α → M σ β) : M σ β := fun s =>
  match (m s).outcome with
  | .ok a =>
    ⟨(f a (m s).state).outcome, (f a (m s).state).state,
      (m s).calls ++ (f a (m s).state).calls⟩
  | .throw e => ⟨.throw e, (m s).state, (m s).calls⟩
  | .pending => ⟨.pending, (m s).state, (m s).calls⟩

instance {σ : Type} : Monad (M σ) where
  pure := M.pure
  bind := M.bind

/-- The statement `throw new Error(msg)`. -/
def M.raise {σ α : Type} (msg : String) : M σ α := fun s => ⟨.throw msg, s, []⟩

/-- The statement `try { body } catch (err) { handler(err.message) }`. -/
def M.tryCatch {σ α : Type} (body : M σ α) (handler : String → M σ α) : M σ α := fun s =>
  match (body s).outcome with
  | .throw e =>
    ⟨(handler e (body s).state).outcome, (handler e (body s).state).state,
      (body s).calls ++ (handler e (body s).state).calls⟩
  | _ => body s

/-- Reads the current state (`this`). -/
def M.get {σ : Type} : M σ σ := fun s => ⟨.ok s, s, []⟩

/-- An external call that returns nothing of interest and does not fail. -/
def M.call {σ : Type} (c : Call) : M σ Unit := fun s => ⟨.ok (), s, [c]⟩

/-- An awaited external call `c` whose answer is `r`. -/
def M.await {σ α : Type} (c : Call) (r : Except String α) : M σ α := fun s =>
  match r with
  | .ok a => ⟨.ok a, s, [c]⟩
  | .error e => ⟨.throw e, s, [c]⟩

/-- Awaiting a stored promise: it is fulfilled if resolved, and never settles
if it is still pending (nothing else holds its resolver). -/
def M.awaitPromise {σ : Type} : Promise → M σ Unit
  | .resolved => fun s => ⟨.ok (), s, []⟩
  | .pending => fun s => ⟨.pending, s, []⟩

/-- Applies a pure update to the current state. -/
def M.modify {σ : Type} (f : σ → σ) : M σ Unit := fun s => ⟨.ok (), f s, []⟩

/-! ## class Bot -/

/-- The call `this.handlers.open()` followed by the settlement of the promise
it returns: the invocation is counted and logged, whatever its answer. -/
def Bot.callOpenHandler (h : Nat → Except String Unit) : M Bot Unit := fun b =>
  M.await .handlerOpen (h b.openCalls) { b with openCalls := b.openCalls + 1 }

/-- How the synchronous prefix of `Bot.open` (lines 175-179) ends. -/
inductive OpenEntry where
  /-- Line 175: the bot is opened, the call returns. -/
  | returned
  /-- Line 176: `return this.opening`, the caller awaits the stored promise. -/
  | waits (p : Promise)
  /-- Lines 177-179 without an `open` handler: the call runs on to line 180. -/
  | proceeds
  /-- Lines 177-179: `handlers.open()` has been invoked and is awaited. -/
  | awaits (h : Nat → Except String Unit)

/-- Lines 175-179 of `Bot.open`, up to the first suspension: the state that
is left and the way the prefix ends. -/
def Bot.openEnter (b : Bot) : OpenEntry × Bot :=
  if b.opened then (.returned, b)
  else
    match b.opening with
    | some p => (.waits p, b)
    | none =>
      match b.handlers.open with
      | none => (.proceeds, { b with opening := some .pending })
      | some h => (.awaits h, { b with opening := some .pending })

/-- Lines 180-181 of `Bot.open`: `_resolve()` and `this.opened = true`. -/
def Bot.openFinish (b : Bot) : Bot :=
  { b with opening := some .resolved, opened := true }

/-- Method `Bot.open` (lines 174-183), run without interleaving. -/
def Bot.open : M Bot Unit := fun b =>
  match b.openEnter with
  | (.returned, b1) => ⟨.ok (), b1, []⟩
  | (.waits p, b1) => M.awaitPromise p b1
  | (.proceeds, b1) => M.modify Bot.openFinish b1
  | (.awaits h, b1) => (Bot.callOpenHandler h >>= fun _ => M.modify Bot.openFinish) b1

/-- The loop of `Bot._ensureTypes` (lines 205-209). -/
def Bot.ensureEach (collection : Collection) : List String → M Bot Unit
  | [] => pure ()
  | typeSpec :: rest => do
    if !collection.hasType typeSpec then
      M.await (.putType collection.oid typeSpec) (collection.putType typeSpec)
    Bot.ensureEach collection rest

/-- Method `Bot._ensureTypes` (lines 203-210). -/
def Bot._ensureTypes (collection : Collection) : M Bot Unit := do
  let self ← M.get
  match self.spec.types with
  | none => pure ()
  | some types => Bot.ensureEach collection types

/-- Method `Bot.onjoin` (lines 185-201). -/
def Bot.onjoin (collection : Collection) (config : Val) : M Bot Unit := do
  Bot._ensureTypes collection
  Bot.open
  let self ← M.get
  if !self.opened then
    match self.handlers.open with
    | some h => do
      Bot.callOpenHandler h
      M.modify fun b => { b with opened := true }
    | none => pure ()
  let self ← M.get
  let session ← M.await (.handlerOnjoin collection.oid config)
    (self.handlers.onjoin collection config)
  match session.open with
  | some r => M.await (.sessionOpen session.sid) r
  | none => pure ()
  if session.onrecord then
    M.call (.subscribe collection.oid ("bot:" ++ self.name) session.sid)
  M.modify fun b => { b with sessions := mapSet b.sessions collection.key session }

/-- Method `Bot.onleave` (lines 212-217).  The lookup key is the collection
object itself. -/
def Bot.onleave (collection : Collection) : M Bot Unit := do
  let self ← M.get
  match self.sessionsGet (.obj collection.oid) with
  | none => pure ()
  | some session =>
    match session.close with
    | some r => M.await (.sessionClose session.sid) r
    | none => pure ()

/-- Modelled from the spec: line 221 of `bots.js`, the condition that opens the
block closed on line 224, is blank in the source.  Spec 4.3: "if no collection
is given, routes to the bot's own `oncommand` handler". -/
def Bot.noCollectionGiven (collection : Option Collection) : Bool :=
  collection.isNone

/-- Modelled from the spec: line 225 of `bots.js`, which binds the `session`
tested on lines 227-230, is blank in the source.  Spec 4.3: "requires an active
SessionHandle for it", the handle being "stored keyed by the collection's key". -/
def Bot.activeSession (b : Bot) : Option Collection → Option Session
  | none => none
  | some collection => b.sessionsGet (.str collection.key)

/-- The message of the `ReferenceError` raised when an unbound identifier is
evaluated. -/
def referenceError (ident : String) : String := ident ++ " is not defined"

/-- Method `Bot.oncommand` (lines 219-231).  Line 226 evaluates `env.collection`
to build the argument of `log.debug`; `env` is neither a parameter nor a local
of the method. -/
def Bot.oncommand (w : World) (collection : Option Collection) (command args : Val) :
    M Bot Val := do
  Bot.open
  let self ← M.get
  if Bot.noCollectionGiven collection then
    M.await (.handlerOncommand command args) (self.handlers.oncommand command args)
  else
    let session := self.activeSession collection
    match w.env with
    | none => M.raise (referenceError "env")
    | some _ =>
      match session with
      | none => M.raise "Bot did not join collection"
      | some session =>
        match session.oncommand with
        | none => M.raise "Bot cannot handle commands"
        | some f => M.await (.sessionOncommand session.sid command args) (f command args)

/-! ## class Bots -/

/-- The constant `SESSION_HEADER` (line 3). -/
def SESSION_HEADER : String := "X-Sonar-Bot-Session-Id"

/-- Method `Bots.getHeaders` (lines 125-131). -/
def Bots.getHeaders (self : Bots) : List (String × String) :=
  if truthy self._sessionId then
    match self._sessionId with
    | some id => [(SESSION_HEADER, id)]
    | none => []
  else []

/-- Method `Bots.fetch` (lines 133-138), for callers that pass no headers of
their own (every caller in the file). -/
def Bots.fetch (w : World) (url method : String) (body : Body) : M Bots Val := do
  let self ← M.get
  let url := "/bot" ++ url
  let headers := self.getHeaders
  M.await (.fetch url method headers body) (w.fetch url method headers body)

/-- Method `Bots.reply` (lines 78-87). -/
def Bots.reply (w : World) (r : Reply) : M Bots Unit := do
  let _ ← Bots.fetch w "/reply" "POST" (.reply r)
  pure ()

/-- A method call on the bot object `bot` that `this.bots` holds under `name`:
the object is shared, so what the method leaves is what the map holds. -/
def Bots.onBot {α : Type} (name : String) (bot : Bot) (m : M Bot α) : M Bots α := fun self =>
  match m bot with
  | ⟨o, bot1, cs⟩ => ⟨o, { self with bots := mapSet self.bots name bot1 }, cs⟩

/-- Method `Bots._onmessage` (lines 89-123). -/
def Bots._onmessage (w : World) (message : Message) : M Bots Unit :=
  M.tryCatch (do
    let name := message.bot
    let op := message.op
    let data := message.data
    let requestId := message.requestId
    let self ← M.get
    match mapGet self.bots name with
    | none => M.raise "Unknown bot: undefined"
    | some bot =>
      M.tryCatch (do
        if op = "join" then
          let collection ← M.await (.openCollection data.collection)
            (w.openCollection data.collection)
          Bots.onBot name bot (Bot.onjoin collection data.config)
          Bots.reply w ⟨requestId, none, .undefined⟩
        else if op = "leave" then
          let collection ← M.await (.openCollection data.collection)
            (w.openCollection data.collection)
          Bots.onBot name bot (Bot.onleave collection)
          Bots.reply w ⟨requestId, none, .undefined⟩
        else if op = "command" then
          let collection ← (if truthy data.collection then do
              let c ← M.await (.openCollection data.collection)
                (w.openCollection data.collection)
              pure (some c)
            else pure none)
          let result ← Bots.onBot name bot (Bot.oncommand w collection data.command data.args)
          Bots.reply w ⟨requestId, none, result⟩)
        (fun err => do
          M.call (.logError ("bot onmessage handle error: " ++ err))
          Bots.reply w ⟨requestId, some err, .undefined⟩))
    (fun _ => M.call (.logError "bot onmessage error"))

/-- The value of `v[k]` for a JSON value: the field of an object, `undefined`
for a missing field and for a value that is not an object. -/
def Val.field (v : Val) (k : String) : Val :=
  match v with
  | .obj fields =>
    match fields.find? (fun p => p.1 = k) with
    | some p => p.2
    | none => .undefined
  | _ => .undefined

/-- Whether a value is `undefined` or `null`: destructuring such a value throws
a `TypeError`. -/
def Val.nullish : Val → Bool
  | .undefined => true
  | .null => true
  | _ => false

/-- A session id as `Bots._sessionId` holds it.  Session ids are strings; any
other value is read as `undefined`. -/
def Val.asSessionId : Val → Option String
  | .str s => some s
  | _ => none

/-- The argument `spec` of `Bots.register`, as far as `typeof spec` and the
assignment `spec.name = name` tell values apart. -/
inductive SpecValue where
  /-- A value whose `typeof` is not "object": undefined, a boolean, a number,
  a string, a function. -/
  | primitive
  /-- The value `null`: its `typeof` is "object", assigning a property throws. -/
  | null
  /-- An object with the properties of a spec. -/
  | object (spec : BotSpec)

/-- The message of the `TypeError` raised by `spec.name = name` on `null`. -/
def setNameOfNullError : String := "Cannot set properties of null (setting 'name')"

/-- The message of the `TypeError` raised when the answer of `/announce` is
`undefined` or `null` and is destructured on line 143. -/
def destructureError : String := "Cannot destructure property 'config' of undefined or null"

/-- The constructor `new Bots(client)` (lines 6-10). -/
def Bots.new : Bots := { bots := [], _sessionId := none, _init := false }

/-- Method `Bots._initListener` (lines 55-76).  The two listeners it installs
are `Bots.messageListener` and an error logger.  The spread of the two header
objects is the concatenation of their entries. -/
def Bots._initListener (w : World) : M Bots Unit := do
  M.modify fun self => { self with _init := true }
  let self ← M.get
  let path := w.endpoint ++ "/bot/events"
  let headers := w.authHeaders ++ self.getHeaders
  M.call (.eventSource path headers)

/-- Method `Bots.register` (lines 140-155). -/
def Bots.register (w : World) (name : String) (spec : SpecValue) (handlers : Handlers) :
    M Bots Unit := do
  match spec with
  | .primitive => M.raise "Spec must be an object"
  | .null => M.raise setNameOfNullError
  | .object spec =>
    let spec := { spec with name := name }
    let res ← Bots.fetch w "/announce" "POST" (.announce spec)
    if res.nullish then M.raise destructureError
    else
      let config := res.field "config"
      let sessionId := res.field "sessionId"
      M.modify fun self => { self with _sessionId := sessionId.asSessionId }
      let self ← M.get
      if !self._init then Bots._initListener w
      M.modify fun self =>
        { self with bots := mapSet self.bots name (Bot.new spec config handlers) }

/-- The value of a synchronous computation that may throw. -/
def M.ofExcept {σ α : Type} : Except String α → M σ α
  | .ok a => M.pure a
  | .error e => M.raise e

/-- A call whose promise is not awaited: the caller goes on at once, whatever
becomes of the promise; what the call does to the state and the calls it makes
are kept. -/
def M.detach {σ α : Type} (m : M σ α) : M σ Unit := fun s =>
  ⟨.ok (), (m s).state, (m s).calls⟩

/-- The `message` listener that `Bots._initListener` installs on the push
stream (lines 65-70).  `parse` is `JSON.parse`, restricted to payloads that are
not JSON (it throws) or are events.  The promise of `_onmessage` is not
awaited. -/
def Bots.messageListener (w : World) (parse : String → Except String Message)
    (data : String) : M Bots Unit :=
  M.tryCatch (do
    let event ← M.ofExcept (parse data)
    M.detach (Bots._onmessage w event))
    (fun _ => pure ())

/-- The `message` listener that `Workspace.createEventSource` installs
(`workspace.js`, lines 232-237), with the optional callback `opts.onmessage`. -/
def Workspace.messageListener {σ : Type} (parse : String → Except String Message)
    (onmessage : Option (Message → M σ Unit)) (data : String) : M σ Unit :=
  M.tryCatch (do
    let event ← M.ofExcept (parse data)
    match onmessage with
    | some f => M.detach (f event)
    | none => pure ())
    (fun _ => pure ())

/-- One call of `register` with what surrounds it. -/
structure Registration where
  world : World
  name : String
  spec : SpecValue
  handlers : Handlers

/-- A sequence of `register` calls on one `Bots` instance, each run on the
state the previous one left: the results of the calls, in order. -/
def Bots.registerAll : List Registration → Bots → List (Ran Bots Unit)
  | [], _ => []
  | r :: rest, self =>
    Bots.register r.world r.name r.spec r.handlers self ::
      Bots.registerAll rest (Bots.register r.world r.name r.spec r.handlers self).state

/-- Whether a call opens the push stream. -/
def Call.isEventSource : Call → Bool
  | .eventSource _ _ => true
  | _ => false

/-- The number of push streams opened by a list of calls. -/
def streams (cs : List Call) : Nat := cs.countP Call.isEventSource

/-- The stream is opened exactly once, by the first successful call: 1 for the
first fulfilled result of a sequence, 0 for every other result. -/
def openedByFirstSuccess : List (Ran Bots Unit) → List Nat
  | [] => []
  | r :: rest =>
    match r.outcome with
    | .ok _ => 1 :: rest.map fun _ => 0
    | _ => 0 :: openedByFirstSuccess rest

/-- The headers of the control-channel calls among a list of calls, in order. -/
def fetchHeaders (cs : List Call) : List (List (String × String)) :=
  cs.filterMap fun c =>
    match c with
    | .fetch _ _ headers _ => some headers
    | _ => none

/-- The body of a call if it is a reply call (`POST /bot/reply`). -/
def Call.asReply : Call → Option Reply
  | .fetch url method _ (.reply r) =>
    if url = "/bot/reply" ∧ method = "POST" then some r else none
  | _ => none

/-- The bodies of the reply calls among a list of calls, in order. -/
def replies (cs : List Call) : List Reply := cs.filterMap Call.asReply

/-- The statements of the inner `try` block of `Bots._onmessage` that precede
the reply (lines 97-98, 101-102 and 105-109): the collection is resolved and
the bot routine for `op` is run; the value is the `result` the reply will
carry.  For any other `op` nothing is done (and no reply follows). -/
def Bots.step (w : World) (message : Message) (bot : Bot) : M Bots Val :=
  if message.op = "join" then do
    let collection ← M.await (.openCollection message.data.collection)
      (w.openCollection message.data.collection)
    Bots.onBot message.bot bot (Bot.onjoin collection message.data.config)
    pure .undefined
  else if message.op = "leave" then do
    let collection ← M.await (.openCollection message.data.collection)
      (w.openCollection message.data.collection)
    Bots.onBot message.bot bot (Bot.onleave collection)
    pure .undefined
  else if message.op = "command" then do
    let collection ← (if truthy message.data.collection then do
        let c ← M.await (.openCollection message.data.collection)
          (w.openCollection message.data.collection)
        pure (some c)
      else pure none)
    Bots.onBot message.bot bot
      (Bot.oncommand w collection message.data.command message.data.args)
  else pure .undefined

/-- The `catch` block of the inner `try` (lines 112-118), for a caught error
whose `message` is `err`. -/
def Bots.innerCatch (w : World) (requestId : Val) (err : String) : M Bots Unit := do
  M.call (.logError ("bot onmessage handle error: " ++ err))
  Bots.reply w ⟨requestId, some err, .undefined⟩

/-- A value caught by `catch (err)`, as far as reading `err.message` tells
values apart: `undefined` or `null`, on which the read throws, or any other
value, with the string found under `message` if there is one. -/
inductive Thrown where
  | nullish
  | value (message : Option String)

/-- The message of the `TypeError` raised by reading `err.message` when `err`
is `undefined` or `null`. -/
def readMessageError : String := "Cannot read properties of undefined (reading 'message')"

/-- The `catch` block of the inner `try` (lines 112-118) for any caught value.
Line 113 reads `err.message` before anything is logged or sent: on `undefined`
and `null` that read throws.  A value without `message` is logged as
"undefined" and answered with a reply whose `error` is `undefined`. -/
def Bots.innerCatchOf (w : World) (requestId : Val) : Thrown → M Bots Unit
  | .nullish => M.raise readMessageError
  | .value (some err) => Bots.innerCatch w requestId err
  | .value none => do
    M.call (.logError "bot onmessage handle error: undefined")
    Bots.reply w ⟨requestId, none, .undefined⟩

/-- The calls made by the `catch` blocks of `Bots._onmessage` (lines 112-122)
for an error of message `err` caught by the inner one: the log entry, the error
reply and, if that reply fails, the log entry of the outer `catch`. -/
def Bots.catchCalls (w : World) (requestId : Val) (self : Bots) (err : String) : List Call :=
  [.logError ("bot onmessage handle error: " ++ err),
    .fetch "/bot/reply" "POST" self.getHeaders (.reply ⟨requestId, some err, .undefined⟩)] ++
  match w.fetch "/bot/reply" "POST" self.getHeaders (.reply ⟨requestId, some err, .undefined⟩) with
  | .ok _ => []
  | .error _ => [.logError "bot onmessage error"]

/-- The collection argument that `Bots._onmessage` passes to `Bot.oncommand`
(lines 105-108) is `collection`: the resolved `data.collection` if that is
truthy, `null` otherwise. -/
def Bots.CommandCollection (w : World) (message : Message) (collection : Option Collection) :
    Prop :=
  (truthy message.data.collection = true
      ∧ ∃ c, w.openCollection message.data.collection = .ok c ∧ collection = some c)
    ∨ (truthy message.data.collection = false ∧ collection = none)

/-- Resolving the collection of the event, or the routine of `bot` for the
event's op (`onjoin`, `onleave`, `oncommand`), fails with an error of message
`m`. -/
def Bots.RoutineFails (w : World) (message : Message) (bot : Bot) (m : String) : Prop :=
  (message.op = "join"
      ∧ (w.openCollection message.data.collection = .error m
        ∨ ∃ c, w.openCollection message.data.collection = .ok c
          ∧ (Bot.onjoin c message.data.config bot).outcome = .throw m))
    ∨ (message.op = "leave"
      ∧ (w.openCollection message.data.collection = .error m
        ∨ ∃ c, w.openCollection message.data.collection = .ok c
          ∧ (Bot.onleave c bot).outcome = .throw m))
    ∨ (message.op = "command"
      ∧ ((truthy message.data.collection = true
          ∧ w.openCollection message.data.collection = .error m)
        ∨ ∃ c, Bots.CommandCollection w message c
          ∧ (Bot.oncommand w c message.data.command message.data.args bot).outcome = .throw m))

/-- A routine that makes no reply call. -/
def Quiet {σ α : Type} (m : M σ α) : Prop := ∀ s, replies (m s).calls = []

/-- A routine that always settles. -/
def Settles {σ α : Type} (m : M σ α) : Prop := ∀ s, (m s).outcome ≠ .pending

/-- Lines 188-191 of `Bot.onjoin`: the `open` handler is invoked if the bot
is not opened after `await this.open()`. -/
def Bot.reopen : M Bot Unit := do
  let self ← M.get
  if !self.opened then
    match self.handlers.open with
    | some h => do
      Bot.callOpenHandler h
      M.modify fun b => { b with opened := true }
    | none => pure ()

/-- Lines 192-200 of `Bot.onjoin`: the `onjoin` handler is called and the
session it returns is opened, subscribed and stored. -/
def Bot.joinTail (collection : Collection) (config : Val) : M Bot Unit := do
  let self ← M.get
  let session ← M.await (.handlerOnjoin collection.oid config)
    (self.handlers.onjoin collection config)
  match session.open with
  | some r => M.await (.sessionOpen session.sid) r
  | none => pure ()
  if session.onrecord then
    M.call (.subscribe collection.oid ("bot:" ++ self.name) session.sid)
  M.modify fun b => { b with sessions := mapSet b.sessions collection.key session }

/-- A bot on which `await this.open()` and lines 188-191 do nothing: it is
opened, or its `opening` promise is resolved and it has no `open` handler. -/
def Bot.Ready (b : Bot) : Prop :=
  b.opened = true ∨ (b.opening = some .resolved ∧ b.handlers.open = none)

/-- The number of entries of a map under the key `key`. -/
def mapCount {β : Type} (l : List (String × β)) (key : String) : Nat :=
  (l.filter fun p => p.1 = key).length

/-- A routine that makes no control-channel call. -/
def Local {σ α : Type} (m : M σ α) : Prop := ∀ s, fetchHeaders (m s).calls = []

/-- A routine that leaves the part `f` of the state as it was. -/
def Keeps {σ α β : Type} (f : σ → β) (m : M σ α) : Prop := ∀ s, f (m s).state = f s

/-! ## A small registry

Concrete collaborators, bots and events on which the routines are evaluated. -/

/-- A session that offers `close` and nothing else. -/
def echoSession : Session :=
  { sid := 1, «open» := none, close := some (.ok ()), onrecord := false, oncommand := none }

/-- The collection named "c1", with key "k1". -/
def c1 : Collection :=
  { oid := 7, key := "k1", name := "c1", hasType := fun _ => true, putType := fun _ => .ok () }

/-- Handlers of the bot "echo": no `open`, `onjoin` returns `echoSession`,
`oncommand` returns its `args` unchanged. -/
def echoHandlers : Handlers :=
  { «open» := none, onjoin := fun _ _ => .ok echoSession, oncommand := fun _ args => .ok args }

/-- Handlers of the bot "flaky": as "echo", with an `open` handler that fails
the first time it is invoked and succeeds afterwards. -/
def flakyHandlers : Handlers :=
  { «open» := some fun n => if n = 0 then .error "open failed" else .ok ()
    onjoin := fun _ _ => .ok echoSession
    oncommand := fun _ args => .ok args }

/-- A world in which "c1" and "k1" resolve to `c1`, every control-channel call
succeeds, and no global `env` exists. -/
def world : World :=
  { openCollection := fun k =>
      if k = some "c1" ∨ k = some "k1" then .ok c1 else .error "Collection does not exist"
    fetch := fun _ _ _ _ => .ok .undefined
    env := none
    endpoint := "http://localhost:9191/api/v1/default"
    authHeaders := [] }

/-- The same world with the control channel down. -/
def downWorld : World :=
  { world with fetch := fun _ _ _ _ => .error "transport down" }

/-- A registry holding the freshly registered bots "echo" and "flaky". -/
def registry : Bots :=
  { bots :=
      [("echo", Bot.new ⟨"echo", none⟩ .undefined echoHandlers),
        ("flaky", Bot.new ⟨"flaky", none⟩ .undefined flakyHandlers)]
    _sessionId := some "t1"
    _init := true }

/-- The event `{ bot, op, data: { collection }, requestId }`. -/
def event (bot op : String) (collection : Option String) (requestId : String) : Message :=
  { bot := bot
    op := op
    data := ⟨collection, .undefined, .str "say", .obj [("x", .num 1)]⟩
    requestId := .str requestId }

/-- A world as `world` whose `/announce` answers with an empty config and a
session id made from the name of the announced bot. -/
def tokenWorld : World :=
  { world with
    fetch := fun _ _ _ body =>
      match body with
      | .announce spec => .ok (.obj [("config", .obj []), ("sessionId", .str ("t-" ++ spec.name))])
      | _ => .ok .undefined }

/-- A stand-in for `JSON.parse` that knows two payloads: the command for "echo"
with requestId "r1", and the join of "echo" into "c1" with requestId "r2"; it
throws on anything else. -/
def parseKnown (data : String) : Except String Message :=
  if data = "command echo r1" then .ok (event "echo" "command" none "r1")
  else if data = "join echo c1 r2" then .ok (event "echo" "join" (some "c1") "r2")
  else .error "Unexpected token in JSON"

/-- A new registry after bot "a" has registered in `tokenWorld`. -/
def registryA : Bots :=
  (Bots.register tokenWorld "a" (.object ⟨"a", none⟩) echoHandlers Bots.new).state

/-- The registry `registryA` after bot "b" has registered as well. -/
def registryAB : Bots :=
  (Bots.register tokenWorld "b" (.object ⟨"b", none⟩) echoHandlers registryA).state

/-! ## Interleaved calls of `Bot.open`

Several events can be in flight at once: a routine runs until its next `await`,
then any other routine may run.  The machine below interleaves, in every
possible order, the pieces of `Bot.onjoin` and `Bot.oncommand` that deal with
opening the bot (lines 174-183 and 187-191). -/

/-- Where a call of `Bot.onjoin` or `Bot.oncommand` in flight stands. -/
inductive Stage where
  /-- Suspended on line 179: `handlers.open()` was invoked, its promise will
  settle with `answer`. -/
  | inHandler (answer : Except String Unit)
  /-- Suspended on `await this.open()`, which returned `this.opening` (line 176). -/
  | waiting
  /-- The promise of `this.open()` is fulfilled; the routine resumes after it. -/
  | returned
  /-- Suspended on line 189 of `Bot.onjoin`: `handlers.open()` was invoked again. -/
  | inFallback (answer : Except String Unit)
  /-- Past the opening logic (line 192 of `onjoin`, line 222 of `oncommand`). -/
  | passed
  /-- The routine has thrown. -/
  | failed

/-- A routine call in flight: `join` tells `Bot.onjoin` from `Bot.oncommand`. -/
structure Task where
  join : Bool
  stage : Stage

/-- A bot together with the routine calls in flight on it. -/
structure OpenSys where
  bot : Bot
  tasks : List Task

/-- The atomic steps of the interleaving. -/
inductive Action where
  /-- A new call of `onjoin` (`join = true`) or `oncommand` reaches
  `await this.open()` and runs lines 175-179. -/
  | arrive (join : Bool)
  /-- The `handlers.open()` promise awaited by task `i` settles. -/
  | settle (i : Nat)
  /-- Task `i`, whose `await this.open()` is fulfilled, runs on. -/
  | resume (i : Nat)

/-- A waiting task is woken when `_resolve()` is called. -/
def Task.wake (t : Task) : Task :=
  match t.stage with
  | .waiting => { t with stage := .returned }
  | _ => t

/-- One atomic step. -/
def OpenSys.step (s : OpenSys) : Action → OpenSys
  | .arrive join =>
    match s.bot.openEnter with
    | (.returned, b) => ⟨b, s.tasks ++ [⟨join, .returned⟩]⟩
    | (.waits .resolved, b) => ⟨b, s.tasks ++ [⟨join, .returned⟩]⟩
    | (.waits .pending, b) => ⟨b, s.tasks ++ [⟨join, .waiting⟩]⟩
    | (.proceeds, b) => ⟨b.openFinish, s.tasks ++ [⟨join, .returned⟩]⟩
    | (.awaits h, b) =>
      ⟨{ b with openCalls := b.openCalls + 1 }, s.tasks ++ [⟨join, .inHandler (h b.openCalls)⟩]⟩
  | .settle i =>
    match s.tasks[i]? with
    | some ⟨join, .inHandler (.ok _)⟩ =>
      ⟨s.bot.openFinish, (s.tasks.set i ⟨join, .returned⟩).map Task.wake⟩
    | some ⟨join, .inHandler (.error _)⟩ => ⟨s.bot, s.tasks.set i ⟨join, .failed⟩⟩
    | some ⟨join, .inFallback (.ok _)⟩ =>
      ⟨{ s.bot with opened := true }, s.tasks.set i ⟨join, .passed⟩⟩
    | some ⟨join, .inFallback (.error _)⟩ => ⟨s.bot, s.tasks.set i ⟨join, .failed⟩⟩
    | _ => s
  | .resume i =>
    match s.tasks[i]? with
    | some ⟨true, .returned⟩ =>
      if !s.bot.opened then
        match s.bot.handlers.open with
        | some h =>
          ⟨{ s.bot with openCalls := s.bot.openCalls + 1 },
            s.tasks.set i ⟨true, .inFallback (h s.bot.openCalls)⟩⟩
        | none => ⟨s.bot, s.tasks.set i ⟨true, .passed⟩⟩
      else ⟨s.bot, s.tasks.set i ⟨true, .passed⟩⟩
    | some ⟨false, .returned⟩ => ⟨s.bot, s.tasks.set i ⟨false, .passed⟩⟩
    | _ => s

/-- A run of the interleaving. -/
def OpenSys.run (s : OpenSys) (actions : List Action) : OpenSys :=
  actions.foldl OpenSys.step s

/-- What the single-flight property rests on. -/
structure OpenSys.Inv (s : OpenSys) : Prop where
  once : s.bot.openCalls ≤ 1
  fresh : s.bot.opening = none → s.bot.openCalls = 0
  resolved : s.bot.opening = some .resolved → s.bot.opened = true
  returned : ∀ t ∈ s.tasks, t.stage = .returned → s.bot.opened = true
  fallback : ∀ t ∈ s.tasks, ∀ a, t.stage ≠ .inFallback a

/-- Handlers of the bot "steady": as "echo", with an `open` handler that
succeeds. -/
def steadyHandlers : Handlers :=
  { «open» := some fun _ => .ok ()
    onjoin := fun _ _ => .ok echoSession
    oncommand := fun _ args => .ok args }

/-! ## Laws of the routine combinators -/

section Laws

variable {σ α β γ : Type}

theorem M.bind_eq (m : M σ α) (f : α → M σ β) : (m >>= f) = M.bind m f := rfl

theorem M.pure_eq (a : α) : (Pure.pure a : M σ α) = M.pure a := rfl

theorem M.pure_bind (a : α) (f : α → M σ β) : M.bind (M.pure a) f = f a := by
  funext s
  simp [M.bind, M.pure]

theorem M.bind_pure (m : M σ α) : M.bind m M.pure = m := by
  funext s
  unfold M.bind M.pure
  rcases h : m s with ⟨o, s1, cs⟩
  cases o <;> simp

theorem M.bind_assoc (m : M σ α) (f : α → M σ β) (g : β → M σ γ) :
    M.bind (M.bind m f) g = M.bind m (fun a => M.bind (f a) g) := by
  funext s
  unfold M.bind
  rcases h : m s with ⟨o, s1, cs⟩
  cases o with
  | ok a =>
    simp only []
    rcases h2 : f a s1 with ⟨o2, s2, cs2⟩
    cases o2 <;> simp [h2]
  | throw e => simp
  | pending => simp

end Laws

section Facts
variable {σ α β : Type}

@[simp] theorem M.pure_run (a : α) (s : σ) : (M.pure a : M σ α) s = ⟨.ok a, s, []⟩ := rfl
@[simp] theorem M.raise_run (e : String) (s : σ) : (M.raise e : M σ α) s = ⟨.throw e, s, []⟩ := rfl
@[simp] theorem M.get_run (s : σ) : (M.get : M σ σ) s = ⟨.ok s, s, []⟩ := rfl
@[simp] theorem M.call_run (c : Call) (s : σ) : (M.call c : M σ Unit) s = ⟨.ok (), s, [c]⟩ := rfl
@[simp] theorem M.modify_run (f : σ → σ) (s : σ) : (M.modify f) s = ⟨.ok (), f s, []⟩ := rfl
@[simp] theorem M.await_ok (c : Call) (a : α) (s : σ) :
    (M.await c (.ok a) : M σ α) s = ⟨.ok a, s, [c]⟩ := rfl
@[simp] theorem M.await_error (c : Call) (e : String) (s : σ) :
    (M.await c (.error e) : M σ α) s = ⟨.throw e, s, [c]⟩ := rfl

theorem M.bind_ok {m : M σ α} {f : α → M σ β} {s : σ} {a : α} (h : (m s).outcome = .ok a) :
    M.bind m f s = ⟨(f a (m s).state).outcome, (f a (m s).state).state,
      (m s).calls ++ (f a (m s).state).calls⟩ := by
  simp [M.bind, h]

theorem M.bind_throw {m : M σ α} {f : α → M σ β} {s : σ} {e : String}
    (h : (m s).outcome = .throw e) : M.bind m f s = ⟨.throw e, (m s).state, (m s).calls⟩ := by
  simp [M.bind, h]

theorem M.bind_pending {m : M σ α} {f : α → M σ β} {s : σ}
    (h : (m s).outcome = .pending) : M.bind m f s = ⟨.pending, (m s).state, (m s).calls⟩ := by
  simp [M.bind, h]

theorem replies_append (xs ys : List Call) : replies (xs ++ ys) = replies xs ++ replies ys := by
  simp [replies]

theorem quiet_bind {m : M σ α} {f : α → M σ β} (hm : Quiet m) (hf : ∀ a, Quiet (f a)) :
    Quiet (m >>= f) := by
  intro s
  show replies (M.bind m f s).calls = []
  cases h : (m s).outcome with
  | ok a => rw [M.bind_ok h]; simp [replies_append, hm s, hf a _]
  | throw e => rw [M.bind_throw h]; exact hm s
  | pending => rw [M.bind_pending h]; exact hm s

theorem quiet_pure (a : α) : Quiet (pure a : M σ α) := fun _ => rfl
theorem quiet_raise (e : String) : Quiet (M.raise e : M σ α) := fun _ => rfl
theorem quiet_get : Quiet (M.get : M σ σ) := fun _ => rfl
theorem quiet_modify (f : σ → σ) : Quiet (M.modify f) := fun _ => rfl
theorem quiet_call {c : Call} (h : c.asReply = none) : Quiet (M.call c : M σ Unit) := by
  intro s; simp [replies, h]
theorem quiet_await {c : Call} (r : Except String α) (h : c.asReply = none) :
    Quiet (M.await c r : M σ α) := by
  intro s; cases r <;> simp [replies, h]

theorem settles_bind {m : M σ α} {f : α → M σ β} (hm : Settles m) (hf : ∀ a, Settles (f a)) :
    Settles (m >>= f) := by
  intro s
  show (M.bind m f s).outcome ≠ .pending
  cases h : (m s).outcome with
  | ok a => rw [M.bind_ok h]; exact hf a _
  | throw e => rw [M.bind_throw h]; simp
  | pending => exact absurd h (hm s)

theorem settles_pure (a : α) : Settles (pure a : M σ α) := fun _ => by simp [Pure.pure]
theorem settles_raise (e : String) : Settles (M.raise e : M σ α) := fun _ => by simp
theorem settles_get : Settles (M.get : M σ σ) := fun _ => by simp
theorem settles_modify (f : σ → σ) : Settles (M.modify f) := fun _ => by simp
theorem settles_call (c : Call) : Settles (M.call c : M σ Unit) := fun _ => by simp
theorem settles_await (c : Call) (r : Except String α) : Settles (M.await c r : M σ α) := by
  intro s; cases r <;> simp

end Facts

theorem Bot.callOpenHandler_quiet (h : Nat → Except String Unit) :
    Quiet (Bot.callOpenHandler h) := by
  intro b
  unfold Bot.callOpenHandler
  cases h b.openCalls <;> simp [replies, Call.asReply]

theorem Bot.callOpenHandler_settles (h : Nat → Except String Unit) :
    Settles (Bot.callOpenHandler h) := by
  intro b
  unfold Bot.callOpenHandler
  cases h b.openCalls <;> simp


theorem Bot.open_opened {b : Bot} (h : b.opened = true) : Bot.open b = ⟨.ok (), b, []⟩ := by
  simp [Bot.open, Bot.openEnter, h]

theorem Bot.open_waiting {b : Bot} {p : Promise} (h : b.opened = false)
    (hp : b.opening = some p) : Bot.open b = M.awaitPromise p b := by
  simp [Bot.open, Bot.openEnter, h, hp]

theorem Bot.open_plain {b : Bot} (h : b.opened = false) (hp : b.opening = none)
    (hh : b.handlers.open = none) :
    Bot.open b = ⟨.ok (), { b with opening := some .resolved, opened := true }, []⟩ := by
  simp [Bot.open, Bot.openEnter, h, hp, hh, Bot.openFinish]

theorem Bot.open_handler_ok {b : Bot} {f : Nat → Except String Unit} (h : b.opened = false)
    (hp : b.opening = none) (hh : b.handlers.open = some f) (hf : f b.openCalls = .ok ()) :
    Bot.open b = ⟨.ok (), { b with opening := some .resolved, opened := true, openCalls := b.openCalls + 1 }, [.handlerOpen]⟩ := by
  simp [Bot.open, Bot.openEnter, h, hp, hh, Bot.openFinish, M.bind_eq, M.bind,
    Bot.callOpenHandler, hf]

theorem Bot.open_handler_error {b : Bot} {f : Nat → Except String Unit} {e : String}
    (h : b.opened = false) (hp : b.opening = none) (hh : b.handlers.open = some f)
    (hf : f b.openCalls = .error e) :
    Bot.open b = ⟨.throw e, { b with opening := some .pending, openCalls := b.openCalls + 1 }, [.handlerOpen]⟩ := by
  simp [Bot.open, Bot.openEnter, h, hp, hh, M.bind_eq, M.bind, Bot.callOpenHandler, hf]

/-- The ways a call of `Bot.open` can end. -/
theorem Bot.open_cases (b : Bot) :
    Bot.open b = ⟨.ok (), b, []⟩ ∧ b.opened = true
    ∨ Bot.open b = ⟨.ok (), b, []⟩ ∧ b.opened = false ∧ b.opening = some .resolved
    ∨ Bot.open b = ⟨.pending, b, []⟩ ∧ b.opened = false ∧ b.opening = some .pending
    ∨ Bot.open b = ⟨.ok (), { b with opening := some .resolved, opened := true }, []⟩
        ∧ b.opened = false ∧ b.opening = none ∧ b.handlers.open = none
    ∨ (∃ f, Bot.open b = ⟨.ok (), { b with opening := some .resolved, opened := true, openCalls := b.openCalls + 1 }, [.handlerOpen]⟩
        ∧ b.opened = false ∧ b.opening = none ∧ b.handlers.open = some f
        ∧ f b.openCalls = .ok ())
    ∨ (∃ f e, Bot.open b = ⟨.throw e, { b with opening := some .pending, openCalls := b.openCalls + 1 }, [.handlerOpen]⟩
        ∧ b.opened = false ∧ b.opening = none ∧ b.handlers.open = some f
        ∧ f b.openCalls = .error e) := by
  rcases Bool.eq_false_or_eq_true b.opened with h | h
  · exact Or.inl ⟨Bot.open_opened h, h⟩
  · cases hp : b.opening with
    | some p =>
      cases p with
      | pending =>
        exact Or.inr (Or.inr (Or.inl ⟨by rw [Bot.open_waiting h hp]; rfl, h, rfl⟩))
      | resolved =>
        exact Or.inr (Or.inl ⟨by rw [Bot.open_waiting h hp]; rfl, h, rfl⟩)
    | none =>
      cases hh : b.handlers.open with
      | none => exact Or.inr (Or.inr (Or.inr (Or.inl ⟨Bot.open_plain h hp hh, h, rfl, rfl⟩)))
      | some f =>
        cases hf : f b.openCalls with
        | ok u =>
          exact Or.inr (Or.inr (Or.inr (Or.inr (Or.inl
            ⟨f, Bot.open_handler_ok h hp hh hf, h, rfl, rfl, hf⟩))))
        | error e =>
          exact Or.inr (Or.inr (Or.inr (Or.inr (Or.inr
            ⟨f, e, Bot.open_handler_error h hp hh hf, h, rfl, rfl, hf⟩))))

theorem Bot.open_quiet : Quiet Bot.open := by
  intro b
  rcases Bot.open_cases b with h | h | h | h | ⟨f, h⟩ | ⟨f, e, h⟩ <;>
    simp [h.1, replies, Call.asReply]

theorem Bot.open_pending {b : Bot} (h : (Bot.open b).outcome = .pending) :
    b.opened = false ∧ b.opening = some .pending := by
  rcases Bot.open_cases b with h1 | h1 | h1 | h1 | ⟨f, h1⟩ | ⟨f, e, h1⟩ <;>
    simp [h1.1] at h
  exact h1.2

theorem Bot.ensureEach_quiet (c : Collection) (ts : List String) : Quiet (Bot.ensureEach c ts) := by
  induction ts with
  | nil => exact quiet_pure _
  | cons t ts ih =>
    unfold Bot.ensureEach
    dsimp only
    split
    · exact quiet_bind (quiet_await _ rfl) (fun _ => ih)
    · exact quiet_bind (quiet_pure _) (fun _ => ih)

theorem Bot.ensureEach_settles (c : Collection) (ts : List String) :
    Settles (Bot.ensureEach c ts) := by
  induction ts with
  | nil => exact settles_pure _
  | cons t ts ih =>
    unfold Bot.ensureEach
    dsimp only
    split
    · exact settles_bind (settles_await _ _) (fun _ => ih)
    · exact settles_bind (settles_pure _) (fun _ => ih)

theorem Bot.ensureEach_state (c : Collection) (ts : List String) (b : Bot) :
    (Bot.ensureEach c ts b).state = b := by
  induction ts with
  | nil => rfl
  | cons t ts ih =>
    unfold Bot.ensureEach
    dsimp only
    split
    · show (M.bind _ _ b).state = b
      cases hp : c.putType t with
      | ok u => rw [M.bind_ok (a := u) (by simp [hp])]; simpa using ih
      | error e => rw [M.bind_throw (e := e) (by simp [hp])]; simp [hp]
    · show (M.bind _ _ b).state = b
      rw [M.bind_ok (a := ()) rfl]; simpa using ih

theorem Bot.onjoin_quiet (c : Collection) (config : Val) : Quiet (Bot.onjoin c config) := by
  unfold Bot.onjoin Bot._ensureTypes
  repeat (first
    | exact quiet_pure _ | exact quiet_raise _ | exact quiet_get | exact quiet_modify _
    | exact quiet_call rfl | exact quiet_await _ rfl | exact Bot.open_quiet
    | exact Bot.callOpenHandler_quiet _ | exact Bot.ensureEach_quiet _ _
    | apply quiet_bind | split | dsimp only | intro _)

theorem Bot.onleave_eq (c : Collection) (b : Bot) : Bot.onleave c b = ⟨.ok (), b, []⟩ := by
  rfl

theorem Bot.oncommand_quiet (w : World) (c : Option Collection) (command args : Val) :
    Quiet (Bot.oncommand w c command args) := by
  unfold Bot.oncommand
  repeat (first
    | exact quiet_pure _ | exact quiet_raise _ | exact quiet_get | exact quiet_modify _
    | exact quiet_call rfl | exact quiet_await _ rfl | exact Bot.open_quiet
    | apply quiet_bind | split | dsimp only | intro _)


/-! ## The dispatcher -/

theorem M.get_bind {σ β : Type} (f : σ → M σ β) (s : σ) : M.bind M.get f s = f s s := rfl

theorem M.tryCatch_congr {σ α : Type} {body body2 : M σ α} (handler : String → M σ α) {s : σ}
    (h : body s = body2 s) : M.tryCatch body handler s = M.tryCatch body2 handler s := by
  unfold M.tryCatch
  rw [h]

theorem Bots.reply_ok {w : World} {r : Reply} {s : Bots} {v : Val}
    (h : w.fetch "/bot/reply" "POST" s.getHeaders (.reply r) = .ok v) :
    Bots.reply w r s = ⟨.ok (), s, [.fetch "/bot/reply" "POST" s.getHeaders (.reply r)]⟩ := by
  have hu : "/bot" ++ "/reply" = "/bot/reply" := by decide
  simp [Bots.reply, Bots.fetch, M.bind_eq, M.pure_eq, M.bind, hu, h]

theorem Bots.reply_error {w : World} {r : Reply} {s : Bots} {e : String}
    (h : w.fetch "/bot/reply" "POST" s.getHeaders (.reply r) = .error e) :
    Bots.reply w r s = ⟨.throw e, s, [.fetch "/bot/reply" "POST" s.getHeaders (.reply r)]⟩ := by
  have hu : "/bot" ++ "/reply" = "/bot/reply" := by decide
  simp [Bots.reply, Bots.fetch, M.bind_eq, M.pure_eq, M.bind, hu, h]

theorem Bots.onBot_quiet {α : Type} (name : String) (bot : Bot) {m : M Bot α} (h : Quiet m) :
    Quiet (Bots.onBot name bot m) := fun _ => h bot

theorem Bots.step_quiet (w : World) (message : Message) (bot : Bot) :
    Quiet (Bots.step w message bot) := by
  unfold Bots.step
  repeat (first
    | exact quiet_pure _ | exact quiet_await _ rfl
    | exact Bots.onBot_quiet _ _ (Bot.onjoin_quiet _ _)
    | exact Bots.onBot_quiet _ _ (Bot.oncommand_quiet _ _ _ _)
    | exact Bots.onBot_quiet _ _ (fun b => by rw [Bot.onleave_eq]; rfl)
    | apply quiet_bind | split | dsimp only | intro _)

theorem Bots.onmessage_unknown {w : World} {message : Message} {s : Bots}
    (h : mapGet s.bots message.bot = none) :
    Bots._onmessage w message s = ⟨.ok (), s, [.logError "bot onmessage error"]⟩ := by
  unfold Bots._onmessage
  simp [M.tryCatch, M.bind_eq, M.get_bind, h]

theorem Bots.onmessage_registered {w : World} {message : Message} {s : Bots} {bot : Bot}
    (hb : mapGet s.bots message.bot = some bot)
    (hop : message.op = "join" ∨ message.op = "leave" ∨ message.op = "command") :
    Bots._onmessage w message s =
      M.tryCatch
        (M.tryCatch
          (M.bind (Bots.step w message bot) fun v => Bots.reply w ⟨message.requestId, none, v⟩)
          (Bots.innerCatch w message.requestId))
        (fun _ => M.call (.logError "bot onmessage error")) s := by
  unfold Bots._onmessage
  apply M.tryCatch_congr
  simp only [M.bind_eq, M.get_bind, hb]
  apply M.tryCatch_congr
  unfold Bots.step
  rcases hop with h | h | h
  · simp only [h, if_true, M.bind_eq, M.pure_eq, M.bind_assoc, M.pure_bind]
  · have h1 : ¬ ("leave" = "join") := by decide
    simp only [h, h1, if_true, if_false, M.bind_eq, M.pure_eq, M.bind_assoc, M.pure_bind]
  · have h1 : ¬ ("command" = "join") := by decide
    have h2 : ¬ ("command" = "leave") := by decide
    simp only [h, h1, h2, if_true, if_false, M.bind_eq, M.pure_eq, M.bind_assoc, M.pure_bind]

theorem Bots.innerCatch_outer (w : World) (requestId : Val) (err : String) (s : Bots) :
    M.tryCatch (Bots.innerCatch w requestId err)
        (fun _ => M.call (.logError "bot onmessage error")) s
      = ⟨.ok (), s, Bots.catchCalls w requestId s err⟩ := by
  unfold Bots.innerCatch Bots.catchCalls M.tryCatch
  cases h : w.fetch "/bot/reply" "POST" s.getHeaders (.reply ⟨requestId, some err, .undefined⟩) with
  | ok v => simp [M.bind_eq, M.bind, Bots.reply_ok h]
  | error e => simp [M.bind_eq, M.bind, Bots.reply_error h]

theorem M.tryCatch_tryCatch_throw {σ α : Type} {body : M σ α} (h1 h2 : String → M σ α) {s : σ}
    {e : String} (h : (body s).outcome = .throw e) :
    M.tryCatch (M.tryCatch body h1) h2 s =
      ⟨(M.tryCatch (h1 e) h2 (body s).state).outcome, (M.tryCatch (h1 e) h2 (body s).state).state,
        (body s).calls ++ (M.tryCatch (h1 e) h2 (body s).state).calls⟩ := by
  unfold M.tryCatch
  simp only [h]
  cases hh : (h1 e (body s).state).outcome <;> simp [hh]

theorem M.tryCatch_tryCatch_ok {σ α : Type} {body : M σ α} (h1 h2 : String → M σ α) {s : σ}
    {a : α} (h : (body s).outcome = .ok a) :
    M.tryCatch (M.tryCatch body h1) h2 s = body s := by
  unfold M.tryCatch
  simp only [h]

theorem M.tryCatch_tryCatch_pending {σ α : Type} {body : M σ α} (h1 h2 : String → M σ α) {s : σ}
    (h : (body s).outcome = .pending) :
    M.tryCatch (M.tryCatch body h1) h2 s = body s := by
  unfold M.tryCatch
  simp only [h]

/-- The dispatcher when the bot routine never settles. -/
theorem Bots.onmessage_of_pending {w : World} {message : Message} {s : Bots} {bot : Bot}
    (hb : mapGet s.bots message.bot = some bot)
    (hop : message.op = "join" ∨ message.op = "leave" ∨ message.op = "command")
    (h : (Bots.step w message bot s).outcome = .pending) :
    Bots._onmessage w message s =
      ⟨.pending, (Bots.step w message bot s).state, (Bots.step w message bot s).calls⟩ := by
  rw [Bots.onmessage_registered hb hop, M.tryCatch_tryCatch_pending]
  · exact M.bind_pending h
  · rw [M.bind_pending h]

/-- The dispatcher when resolving the collection or the bot routine fails. -/
theorem Bots.onmessage_of_throw {w : World} {message : Message} {s : Bots} {bot : Bot}
    {m : String} (hb : mapGet s.bots message.bot = some bot)
    (hop : message.op = "join" ∨ message.op = "leave" ∨ message.op = "command")
    (h : (Bots.step w message bot s).outcome = .throw m) :
    Bots._onmessage w message s =
      ⟨.ok (), (Bots.step w message bot s).state,
        (Bots.step w message bot s).calls ++
          Bots.catchCalls w message.requestId (Bots.step w message bot s).state m⟩ := by
  rw [Bots.onmessage_registered hb hop, M.tryCatch_tryCatch_throw (e := m)]
  · simp [M.bind_throw h, Bots.innerCatch_outer]
  · rw [M.bind_throw h]

/-- The dispatcher when the bot routine returns `v`. -/
theorem Bots.onmessage_of_ok {w : World} {message : Message} {s : Bots} {bot : Bot} {v : Val}
    (hb : mapGet s.bots message.bot = some bot)
    (hop : message.op = "join" ∨ message.op = "leave" ∨ message.op = "command")
    (h : (Bots.step w message bot s).outcome = .ok v) :
    Bots._onmessage w message s =
      ⟨.ok (), (Bots.step w message bot s).state,
        (Bots.step w message bot s).calls ++
          (.fetch "/bot/reply" "POST" (Bots.step w message bot s).state.getHeaders
              (.reply ⟨message.requestId, none, v⟩) ::
            match w.fetch "/bot/reply" "POST" (Bots.step w message bot s).state.getHeaders
              (.reply ⟨message.requestId, none, v⟩) with
            | .ok _ => []
            | .error e =>
              Bots.catchCalls w message.requestId (Bots.step w message bot s).state e)⟩ := by
  rw [Bots.onmessage_registered hb hop]
  cases hf : w.fetch "/bot/reply" "POST" (Bots.step w message bot s).state.getHeaders
      (.reply ⟨message.requestId, none, v⟩) with
  | ok u =>
    rw [M.tryCatch_tryCatch_ok (a := ())]
    · simp [M.bind_ok h, Bots.reply_ok hf]
    · simp [M.bind_ok h, Bots.reply_ok hf]
  | error e =>
    rw [M.tryCatch_tryCatch_throw (e := e)]
    · simp [M.bind_ok h, Bots.reply_error hf, Bots.innerCatch_outer]
    · simp [M.bind_ok h, Bots.reply_error hf]

/-- A registered bot and an `op` other than join, leave and command: nothing
is done. -/
theorem Bots.onmessage_other_op {w : World} {message : Message} {s : Bots} {bot : Bot}
    (hb : mapGet s.bots message.bot = some bot) (h1 : message.op ≠ "join")
    (h2 : message.op ≠ "leave") (h3 : message.op ≠ "command") :
    Bots._onmessage w message s = ⟨.ok (), s, []⟩ := by
  unfold Bots._onmessage
  simp [M.tryCatch, M.bind_eq, M.get_bind, hb, h1, h2, h3, M.pure_eq]


theorem M.bind_pending_inv {σ α β : Type} {m : M σ α} {f : α → M σ β} {s : σ}
    (h : (M.bind m f s).outcome = .pending) :
    (m s).outcome = .pending ∨ ∃ a, (m s).outcome = .ok a ∧ (f a (m s).state).outcome = .pending := by
  cases hm : (m s).outcome with
  | ok a => rw [M.bind_ok hm] at h; exact Or.inr ⟨a, rfl, h⟩
  | throw e => rw [M.bind_throw hm] at h; simp at h
  | pending => exact Or.inl rfl

theorem settles_elim {σ α : Type} {m : M σ α} (hm : Settles m) {s : σ}
    (h : (m s).outcome = .pending) : False := hm s h

theorem Bot.ensureTypes_settles (c : Collection) : Settles (Bot._ensureTypes c) := by
  unfold Bot._ensureTypes
  repeat (first
    | exact settles_pure _ | exact settles_get | exact Bot.ensureEach_settles _ _
    | apply settles_bind | split | dsimp only | intro _)

theorem Bot.ensureTypes_state (c : Collection) (b : Bot) : (Bot._ensureTypes c b).state = b := by
  unfold Bot._ensureTypes
  show (M.bind M.get _ b).state = b
  rw [M.get_bind]
  cases b.spec.types with
  | none => rfl
  | some types => exact Bot.ensureEach_state _ _ _

theorem Bot.onjoin_pending {c : Collection} {config : Val} {b : Bot}
    (h : (Bot.onjoin c config b).outcome = .pending) :
    b.opened = false ∧ b.opening = some .pending := by
  unfold Bot.onjoin at h
  rcases M.bind_pending_inv h with h1 | ⟨_, _, h2⟩
  · exact (settles_elim (Bot.ensureTypes_settles c) h1).elim
  · rw [Bot.ensureTypes_state] at h2
    rcases M.bind_pending_inv h2 with h3 | ⟨_, _, h4⟩
    · exact Bot.open_pending h3
    · refine (settles_elim ?_ h4).elim
      repeat (first
        | exact settles_pure _ | exact settles_raise _ | exact settles_get
        | exact settles_modify _ | exact settles_call _ | exact settles_await _ _
        | exact Bot.callOpenHandler_settles _
        | apply settles_bind | split | dsimp only | intro _)


theorem Bot.oncommand_pending {w : World} {c : Option Collection} {command args : Val} {b : Bot}
    (h : (Bot.oncommand w c command args b).outcome = .pending) :
    b.opened = false ∧ b.opening = some .pending := by
  unfold Bot.oncommand at h
  rcases M.bind_pending_inv h with h3 | ⟨_, _, h4⟩
  · exact Bot.open_pending h3
  · refine (settles_elim ?_ h4).elim
    repeat (first
      | exact settles_pure _ | exact settles_raise _ | exact settles_get
      | exact settles_modify _ | exact settles_call _ | exact settles_await _ _
      | apply settles_bind | split | dsimp only | intro _)

theorem Bots.onBot_outcome {α : Type} (name : String) (bot : Bot) (m : M Bot α) (s : Bots) :
    (Bots.onBot name bot m s).outcome = (m bot).outcome := rfl

theorem Bots.step_pending {w : World} {message : Message} {bot : Bot} {s : Bots}
    (h : (Bots.step w message bot s).outcome = .pending) :
    bot.opened = false ∧ bot.opening = some .pending := by
  unfold Bots.step at h
  split at h
  · rcases M.bind_pending_inv h with h1 | ⟨_, _, h2⟩
    · exact (settles_elim (settles_await _ _) h1).elim
    · rcases M.bind_pending_inv h2 with h3 | ⟨_, _, h4⟩
      · exact Bot.onjoin_pending h3
      · exact (settles_elim (settles_pure _) h4).elim
  · split at h
    · rcases M.bind_pending_inv h with h1 | ⟨_, _, h2⟩
      · exact (settles_elim (settles_await _ _) h1).elim
      · rcases M.bind_pending_inv h2 with h3 | ⟨_, _, h4⟩
        · rw [Bots.onBot_outcome, Bot.onleave_eq] at h3
          simp at h3
        · exact (settles_elim (settles_pure _) h4).elim
    · split at h
      · rcases M.bind_pending_inv h with h1 | ⟨_, _, h2⟩
        · refine (settles_elim ?_ h1).elim
          repeat (first
            | exact settles_pure _ | exact settles_await _ _
            | apply settles_bind | split | dsimp only | intro _)
        · exact Bot.oncommand_pending h2
      · exact (settles_elim (settles_pure _) h).elim

theorem replies_catchCalls (w : World) (requestId : Val) (s : Bots) (m : String) :
    replies (Bots.catchCalls w requestId s m) = [⟨requestId, some m, .undefined⟩] := by
  unfold Bots.catchCalls
  split <;> simp [replies, Call.asReply]

/-! ## Replies of the dispatcher -/

/-- C1, as stated, fails.  An event with a requestId for the registered bot
"echo" whose op is none of join, leave and command gets no reply call; and a
command event whose success reply cannot be delivered gets two reply calls. -/
theorem onmessage_reply_count_counterexample :
    (mapGet registry.bots (event "echo" "ping" none "r1").bot).isSome = true
    ∧ (replies (Bots._onmessage world (event "echo" "ping" none "r1") registry).calls).length = 0
    ∧ (replies
        (Bots._onmessage downWorld (event "echo" "command" none "r1") registry).calls).length
      = 2 :=
  ⟨rfl, rfl, rfl⟩

/-- The `catch` of lines 112-118 on an error with a message is
`Bots.innerCatch`. -/
theorem Bots.innerCatchOf_message (w : World) (requestId : Val) (err : String) :
    Bots.innerCatchOf w requestId (.value (some err)) = Bots.innerCatch w requestId err := rfl

/-- On a caught `undefined` or `null` the `catch` of lines 112-118 throws while
it reads `err.message`; the outer `catch` logs, and no reply call is made. -/
theorem Bots.innerCatchOf_nullish (w : World) (requestId : Val) (s : Bots) :
    M.tryCatch (Bots.innerCatchOf w requestId .nullish)
        (fun _ => M.call (.logError "bot onmessage error")) s
      = ⟨.ok (), s, [.logError "bot onmessage error"]⟩ := rfl

/-- C1 (amended).  For an event addressed to a registered bot with op join,
leave or command whose handling settles, failures being errors that carry a
message, `Bots._onmessage` issues exactly one reply call, carrying the event's
requestId: the success reply with the routine's result if the collection
resolves and the routine succeeds, the error reply with the failure's message
if one of them fails with message `m`.  The one exception: if the
control-channel call of the success reply itself fails with message `e`, a
second reply call follows, the error reply with `e`. -/
theorem onmessage_replies_registered (w : World) (message : Message) (s : Bots) (bot : Bot)
    (hb : mapGet s.bots message.bot = some bot)
    (hop : message.op = "join" ∨ message.op = "leave" ∨ message.op = "command")
    (hs : (Bots._onmessage w message s).outcome = .ok ()) :
    (∃ v, (Bots.step w message bot s).outcome = .ok v
        ∧ replies (Bots._onmessage w message s).calls = [⟨message.requestId, none, v⟩])
    ∨ (∃ m, (Bots.step w message bot s).outcome = .throw m
        ∧ replies (Bots._onmessage w message s).calls
          = [⟨message.requestId, some m, .undefined⟩])
    ∨ (∃ v e headers, (Bots.step w message bot s).outcome = .ok v
        ∧ replies (Bots._onmessage w message s).calls
          = [⟨message.requestId, none, v⟩, ⟨message.requestId, some e, .undefined⟩]
        ∧ w.fetch "/bot/reply" "POST" headers (.reply ⟨message.requestId, none, v⟩)
          = .error e) := by
  cases h : (Bots.step w message bot s).outcome with
  | pending =>
    rw [Bots.onmessage_of_pending hb hop h] at hs
    simp at hs
  | throw m =>
    refine Or.inr (Or.inl ⟨m, rfl, ?_⟩)
    rw [Bots.onmessage_of_throw hb hop h]
    simp only [replies_append, Bots.step_quiet w message bot s, replies_catchCalls,
      List.nil_append]
  | ok v =>
    rw [Bots.onmessage_of_ok hb hop h]
    cases hf : w.fetch "/bot/reply" "POST" (Bots.step w message bot s).state.getHeaders
        (.reply ⟨message.requestId, none, v⟩) with
    | ok u =>
      refine Or.inl ⟨v, rfl, ?_⟩
      simp only [replies_append, Bots.step_quiet w message bot s, List.nil_append]
      simp [replies, Call.asReply]
    | error e =>
      refine Or.inr (Or.inr ⟨v, e, _, rfl, ?_, hf⟩)
      have hc := replies_catchCalls w message.requestId (Bots.step w message bot s).state e
      simp only [replies_append, Bots.step_quiet w message bot s, List.nil_append]
      simp only [replies] at hc ⊢
      simp [Call.asReply, hc]

/-- Witness of C1 (amended): the join of "echo" into "c1", which succeeds and
gets the one success reply; and its leave of a collection that does not
resolve, which gets the one error reply. -/
theorem onmessage_replies_registered_witness :
    ((∃ v, (Bots.step world (event "echo" "join" (some "c1") "r2")
            (Bot.new ⟨"echo", none⟩ .undefined echoHandlers) registry).outcome = .ok v
        ∧ replies (Bots._onmessage world (event "echo" "join" (some "c1") "r2") registry).calls
          = [⟨(event "echo" "join" (some "c1") "r2").requestId, none, v⟩])
      ∨ (∃ m, (Bots.step world (event "echo" "join" (some "c1") "r2")
            (Bot.new ⟨"echo", none⟩ .undefined echoHandlers) registry).outcome = .throw m
        ∧ replies (Bots._onmessage world (event "echo" "join" (some "c1") "r2") registry).calls
          = [⟨(event "echo" "join" (some "c1") "r2").requestId, some m, .undefined⟩])
      ∨ (∃ v e headers, (Bots.step world (event "echo" "join" (some "c1") "r2")
            (Bot.new ⟨"echo", none⟩ .undefined echoHandlers) registry).outcome = .ok v
        ∧ replies (Bots._onmessage world (event "echo" "join" (some "c1") "r2") registry).calls
          = [⟨(event "echo" "join" (some "c1") "r2").requestId, none, v⟩,
              ⟨(event "echo" "join" (some "c1") "r2").requestId, some e, .undefined⟩]
        ∧ world.fetch "/bot/reply" "POST" headers
            (.reply ⟨(event "echo" "join" (some "c1") "r2").requestId, none, v⟩) = .error e))
    ∧ replies (Bots._onmessage world (event "echo" "join" (some "c1") "r2") registry).calls
      = [⟨.str "r2", none, .undefined⟩]
    ∧ replies (Bots._onmessage world (event "echo" "leave" (some "nope") "r3") registry).calls
      = [⟨.str "r3", some "Collection does not exist", .undefined⟩] :=
  ⟨onmessage_replies_registered world (event "echo" "join" (some "c1") "r2") registry
      (Bot.new ⟨"echo", none⟩ .undefined echoHandlers) rfl (Or.inl rfl) rfl,
    rfl, rfl⟩


theorem Bots.step_join {w : World} {message : Message} {bot : Bot} (h : message.op = "join") :
    Bots.step w message bot =
      M.bind (M.await (.openCollection message.data.collection)
          (w.openCollection message.data.collection)) fun collection =>
        M.bind (Bots.onBot message.bot bot (Bot.onjoin collection message.data.config))
          fun _ => M.pure .undefined := by
  unfold Bots.step
  simp only [h, if_true, M.bind_eq, M.pure_eq]

theorem Bots.step_leave {w : World} {message : Message} {bot : Bot} (h : message.op = "leave") :
    Bots.step w message bot =
      M.bind (M.await (.openCollection message.data.collection)
          (w.openCollection message.data.collection)) fun collection =>
        M.bind (Bots.onBot message.bot bot (Bot.onleave collection))
          fun _ => M.pure .undefined := by
  have h1 : ¬ ("leave" = "join") := by decide
  unfold Bots.step
  simp only [h, h1, if_true, if_false, M.bind_eq, M.pure_eq]

theorem Bots.step_command_global {w : World} {message : Message} {bot : Bot}
    (h : message.op = "command") (hc : truthy message.data.collection = false) :
    Bots.step w message bot =
      Bots.onBot message.bot bot
        (Bot.oncommand w none message.data.command message.data.args) := by
  have h1 : ¬ ("command" = "join") := by decide
  have h2 : ¬ ("command" = "leave") := by decide
  unfold Bots.step
  simp [h, h1, h2, hc, M.bind_eq, M.pure_eq, M.pure_bind]

theorem Bots.step_command_collection {w : World} {message : Message} {bot : Bot}
    (h : message.op = "command") (hc : truthy message.data.collection = true) :
    Bots.step w message bot =
      M.bind (M.await (.openCollection message.data.collection)
          (w.openCollection message.data.collection)) fun c =>
        Bots.onBot message.bot bot
          (Bot.oncommand w (some c) message.data.command message.data.args) := by
  have h1 : ¬ ("command" = "join") := by decide
  have h2 : ¬ ("command" = "leave") := by decide
  unfold Bots.step
  simp [h, h1, h2, hc, M.bind_eq, M.pure_eq, M.pure_bind, M.bind_assoc]

theorem Bots.step_of_command {w : World} {message : Message} {bot : Bot} {s : Bots}
    {c : Option Collection} (h : message.op = "command")
    (hc : Bots.CommandCollection w message c) :
    (Bots.step w message bot s).outcome
        = (Bot.oncommand w c message.data.command message.data.args bot).outcome
      ∧ (Bots.step w message bot s).state.bots = mapSet s.bots message.bot
          (Bot.oncommand w c message.data.command message.data.args bot).state
      ∧ replies (Bots.step w message bot s).calls = [] := by
  refine ⟨?_, ?_, Bots.step_quiet w message bot s⟩
  · rcases hc with ⟨ht, c1, hr, rfl⟩ | ⟨ht, rfl⟩
    · rw [Bots.step_command_collection h ht, M.bind_ok (a := c1) (by simp [hr])]
      simp [hr, Bots.onBot]
    · rw [Bots.step_command_global h ht]; rfl
  · rcases hc with ⟨ht, c1, hr, rfl⟩ | ⟨ht, rfl⟩
    · rw [Bots.step_command_collection h ht, M.bind_ok (a := c1) (by simp [hr])]
      simp [hr, Bots.onBot]
    · rw [Bots.step_command_global h ht]; rfl

theorem Bots.step_of_fails {w : World} {message : Message} {bot : Bot} {m : String}
    (s : Bots) (h : Bots.RoutineFails w message bot m) :
    (Bots.step w message bot s).outcome = .throw m := by
  rcases h with ⟨hop, h⟩ | ⟨hop, h⟩ | ⟨hop, h⟩
  · rw [Bots.step_join hop]
    rcases h with h | ⟨c, hc, h⟩
    · rw [M.bind_throw (e := m) (by simp [h])]
    · rw [M.bind_ok (a := c) (by simp [hc])]
      simp only [hc, M.await_ok]
      rw [M.bind_throw (e := m) (by simpa [Bots.onBot] using h)]
  · rw [Bots.step_leave hop]
    rcases h with h | ⟨c, hc, h⟩
    · rw [M.bind_throw (e := m) (by simp [h])]
    · rw [Bot.onleave_eq] at h
      simp at h
  · rcases h with ⟨ht, h⟩ | ⟨c, hc, h⟩
    · rw [Bots.step_command_collection hop ht, M.bind_throw (e := m) (by simp [h])]
    · rw [(Bots.step_of_command hop hc).1, h]

/-- C2.  For an event addressed to a registered bot with op join, leave or
command: if resolving the collection or the bot routine for that op fails with
an error of message `m`, the only reply call of `Bots._onmessage` is
`{ requestId, error: m }`, with no result. -/
theorem onmessage_error_reply (w : World) (message : Message) (s : Bots) (bot : Bot)
    (m : String) (hb : mapGet s.bots message.bot = some bot)
    (hfail : Bots.RoutineFails w message bot m) :
    replies (Bots._onmessage w message s).calls
      = [⟨message.requestId, some m, .undefined⟩] := by
  have hop : message.op = "join" ∨ message.op = "leave" ∨ message.op = "command" := by
    rcases hfail with h | h | h
    · exact Or.inl h.1
    · exact Or.inr (Or.inl h.1)
    · exact Or.inr (Or.inr h.1)
  rw [Bots.onmessage_of_throw hb hop (Bots.step_of_fails s hfail)]
  simp only [replies_append, Bots.step_quiet w message bot s, replies_catchCalls,
    List.nil_append]

/-- Witness of C2: "echo" is asked to leave a collection that does not
resolve. -/
theorem onmessage_error_reply_witness :
    Bots.RoutineFails world (event "echo" "leave" (some "nope") "r3")
        (Bot.new ⟨"echo", none⟩ .undefined echoHandlers) "Collection does not exist"
    ∧ replies (Bots._onmessage world (event "echo" "leave" (some "nope") "r3") registry).calls
      = [⟨.str "r3", some "Collection does not exist", .undefined⟩] :=
  ⟨Or.inr (Or.inl ⟨rfl, Or.inl rfl⟩),
    onmessage_error_reply world (event "echo" "leave" (some "nope") "r3") registry
      (Bot.new ⟨"echo", none⟩ .undefined echoHandlers) "Collection does not exist" rfl
      (Or.inr (Or.inl ⟨rfl, Or.inl rfl⟩))⟩

/-- C3 fails on the code.  An event for a bot name that is not in the registry
makes `Bots._onmessage` write one entry to the error log and nothing else: no
reply call is issued and the registry is unchanged, whatever the requestId. -/
theorem onmessage_unknown_bot_only_logs (w : World) (message : Message) (s : Bots)
    (h : mapGet s.bots message.bot = none) :
    (Bots._onmessage w message s).calls = [.logError "bot onmessage error"]
    ∧ replies (Bots._onmessage w message s).calls = []
    ∧ (Bots._onmessage w message s).state = s := by
  rw [Bots.onmessage_unknown h]
  exact ⟨rfl, rfl, rfl⟩

/-- Witness of C3's failure: a command for the unregistered bot "nobody" with
requestId "r1". -/
theorem onmessage_unknown_bot_only_logs_witness :
    mapGet registry.bots (event "nobody" "command" none "r1").bot = none
    ∧ (Bots._onmessage world (event "nobody" "command" none "r1") registry).calls
      = [.logError "bot onmessage error"]
    ∧ replies (Bots._onmessage world (event "nobody" "command" none "r1") registry).calls = []
    ∧ (Bots._onmessage world (event "nobody" "command" none "r1") registry).state = registry :=
  ⟨rfl, onmessage_unknown_bot_only_logs world (event "nobody" "command" none "r1") registry rfl⟩

/-- C4.  `Bots._onmessage` never raises: for every world, event and registry
the promise it returns is fulfilled, or it stays pending, which happens only for
a registered bot whose `opening` promise was left pending by an earlier failed
`open`.  It is fulfilled whatever fails during the event. -/
theorem onmessage_never_raises (w : World) (message : Message) (s : Bots) :
    (Bots._onmessage w message s).outcome = .ok ()
    ∨ ((Bots._onmessage w message s).outcome = .pending
      ∧ ∃ bot, mapGet s.bots message.bot = some bot
        ∧ bot.opened = false ∧ bot.opening = some .pending) := by
  cases hb : mapGet s.bots message.bot with
  | none => rw [Bots.onmessage_unknown hb]; exact Or.inl rfl
  | some bot =>
    by_cases hop : message.op = "join" ∨ message.op = "leave" ∨ message.op = "command"
    · cases h : (Bots.step w message bot s).outcome with
      | ok v => rw [Bots.onmessage_of_ok hb hop h]; exact Or.inl rfl
      | throw m => rw [Bots.onmessage_of_throw hb hop h]; exact Or.inl rfl
      | pending =>
        rw [Bots.onmessage_of_pending hb hop h]
        exact Or.inr ⟨rfl, bot, rfl, Bots.step_pending h⟩
    · simp only [not_or] at hop
      rw [Bots.onmessage_other_op hb hop.1 hop.2.1 hop.2.2]
      exact Or.inl rfl


/-! ## Single flight -/

theorem OpenSys.inv_init (spec : BotSpec) (config : Val) (handlers : Handlers) :
    OpenSys.Inv ⟨Bot.new spec config handlers, []⟩ :=
  { once := Nat.zero_le _
    fresh := fun _ => rfl
    resolved := fun h => by simp [Bot.new] at h
    returned := fun t ht => by simp at ht
    fallback := fun t ht => by simp at ht }

theorem Task.wake_stage (t : Task) :
    (t.wake.stage = t.stage) ∨ (t.stage = .waiting ∧ t.wake.stage = .returned) := by
  unfold Task.wake
  cases h : t.stage <;> simp [h]

theorem OpenSys.inv_arrive {s : OpenSys} (hs : s.Inv) (join : Bool) :
    (s.step (.arrive join)).Inv := by
  unfold OpenSys.step Bot.openEnter
  rcases Bool.eq_false_or_eq_true s.bot.opened with ho | ho
  · simp only [ho, if_true]
    exact { hs with
      returned := fun t _ _ => ho
      fallback := fun t ht a => by
        rcases List.mem_append.1 ht with h | h
        · exact hs.fallback t h a
        · simp at h; simp [h] }
  · cases hp : s.bot.opening with
    | some p =>
      cases p with
      | resolved => exact absurd (hs.resolved hp) (by simp [ho])
      | pending =>
        simp only [ho, hp]
        exact { hs with
          returned := fun t ht hr => by
            rcases List.mem_append.1 ht with h | h
            · exact hs.returned t h hr
            · simp at h; simp [h] at hr
          fallback := fun t ht a => by
            rcases List.mem_append.1 ht with h | h
            · exact hs.fallback t h a
            · simp at h; simp [h] }
    | none =>
      cases hh : s.bot.handlers.open with
      | none =>
        simp only [ho, hp, hh]
        exact {
          once := hs.once
          fresh := fun h => by simp [Bot.openFinish] at h
          resolved := fun _ => rfl
          returned := fun _ _ _ => rfl
          fallback := fun t ht a => by
            rcases List.mem_append.1 ht with h | h
            · exact hs.fallback t h a
            · simp at h; simp [h] }
      | some f =>
        simp only [ho, hp, hh]
        exact {
          once := by simp [hs.fresh hp]
          fresh := fun h => by simp at h
          resolved := fun h => by simp at h
          returned := fun t ht hr => by
            rcases List.mem_append.1 ht with h | h
            · exact absurd (hs.returned t h hr) (by simp [ho])
            · simp at h; simp [h] at hr
          fallback := fun t ht a => by
            rcases List.mem_append.1 ht with h | h
            · exact hs.fallback t h a
            · simp at h; simp [h] }

theorem OpenSys.inv_set {s : OpenSys} (hs : s.Inv) (i : Nat) (t : Task)
    (h1 : t.stage = .returned → s.bot.opened = true) (h2 : ∀ a, t.stage ≠ .inFallback a) :
    OpenSys.Inv ⟨s.bot, s.tasks.set i t⟩ :=
  { hs with
    returned := fun u hu hr => by
      rcases List.mem_or_eq_of_mem_set hu with h | h
      · exact hs.returned u h hr
      · exact h1 (h ▸ hr)
    fallback := fun u hu a => by
      rcases List.mem_or_eq_of_mem_set hu with h | h
      · exact hs.fallback u h a
      · exact h ▸ h2 a }

theorem OpenSys.inv_settle {s : OpenSys} (hs : s.Inv) (i : Nat) :
    (s.step (.settle i)).Inv := by
  simp only [OpenSys.step]
  split
  · exact {
      once := hs.once
      fresh := fun h => by simp [Bot.openFinish] at h
      resolved := fun _ => rfl
      returned := fun _ _ _ => rfl
      fallback := fun u hu a => by
        rcases List.mem_map.1 hu with ⟨v, hv, rfl⟩
        have hv2 : ∀ a, v.stage ≠ .inFallback a := by
          intro a
          rcases List.mem_or_eq_of_mem_set hv with h | h
          · exact hs.fallback v h a
          · simp [h]
        rcases Task.wake_stage v with h | ⟨_, h⟩
        · rw [h]; exact hv2 a
        · simp [h] }
  · exact OpenSys.inv_set hs i _ (by simp) (by simp)
  · rename_i join u hget
    exact absurd rfl (hs.fallback _ (List.getElem?_mem hget) (.ok u))
  · exact OpenSys.inv_set hs i _ (by simp) (by simp)
  · exact hs

theorem OpenSys.inv_resume {s : OpenSys} (hs : s.Inv) (i : Nat) :
    (s.step (.resume i)).Inv := by
  simp only [OpenSys.step]
  split
  · rename_i hget
    have ho := hs.returned _ (List.getElem?_mem hget) rfl
    simp only [ho, Bool.not_true, Bool.false_eq_true, if_false]
    exact OpenSys.inv_set hs i _ (by simp) (by simp)
  · exact OpenSys.inv_set hs i _ (by simp) (by simp)
  · exact hs

theorem OpenSys.inv_step {s : OpenSys} (hs : s.Inv) (a : Action) : (s.step a).Inv := by
  cases a with
  | arrive join => exact OpenSys.inv_arrive hs join
  | settle i => exact OpenSys.inv_settle hs i
  | resume i => exact OpenSys.inv_resume hs i

theorem OpenSys.inv_run {s : OpenSys} (hs : s.Inv) (actions : List Action) :
    (s.run actions).Inv := by
  induction actions generalizing s with
  | nil => exact hs
  | cons a rest ih => exact ih (OpenSys.inv_step hs a)

/-- Run without interleaving, the machine is `Bot.open`: an arrival at an idle
bot followed at once by the settlement of its `open` handler leaves the bot
that `Bot.open` leaves. -/
theorem OpenSys.arrive_settle_bot (b : Bot) (join : Bool) :
    (((OpenSys.mk b []).step (.arrive join)).step (.settle 0)).bot = (Bot.open b).state := by
  rcases Bool.eq_false_or_eq_true b.opened with ho | ho
  · simp [OpenSys.step, Bot.open, Bot.openEnter, ho]
  · cases hp : b.opening with
    | some p => cases p <;> simp [OpenSys.step, Bot.open, Bot.openEnter, ho, hp, M.awaitPromise]
    | none =>
      cases hh : b.handlers.open with
      | none => simp [OpenSys.step, Bot.open, Bot.openEnter, ho, hp, hh]
      | some f =>
        cases hf : f b.openCalls with
        | ok u =>
          simp [OpenSys.step, Bot.open, Bot.openEnter, ho, hp, hh, hf, M.bind_eq, M.bind,
            Bot.callOpenHandler]
        | error e =>
          simp [OpenSys.step, Bot.open, Bot.openEnter, ho, hp, hh, hf, M.bind_eq, M.bind,
            Bot.callOpenHandler]

/-- C5.  Start from a newly constructed bot and interleave, in any order, any
number of join and command events that reach `Bot.open`, the settlements of the
`open` handler and the resumptions of the waiting routines: `handlers.open` is
invoked at most once.  Moreover a caller that arrives while an open is in flight
(`opened` false, `opening` pending) invokes nothing and waits for that
attempt. -/
theorem open_single_flight (spec : BotSpec) (config : Val) (handlers : Handlers)
    (actions : List Action) :
    ((OpenSys.mk (Bot.new spec config handlers) []).run actions).bot.openCalls ≤ 1
    ∧ ∀ join, ((OpenSys.mk (Bot.new spec config handlers) []).run actions).bot.opened = false →
      ((OpenSys.mk (Bot.new spec config handlers) []).run actions).bot.opening = some .pending →
      (((OpenSys.mk (Bot.new spec config handlers) []).run actions).step (.arrive join)).bot
          = ((OpenSys.mk (Bot.new spec config handlers) []).run actions).bot
        ∧ (((OpenSys.mk (Bot.new spec config handlers) []).run actions).step
            (.arrive join)).tasks
          = ((OpenSys.mk (Bot.new spec config handlers) []).run actions).tasks
            ++ [⟨join, .waiting⟩] := by
  refine ⟨(OpenSys.inv_run (OpenSys.inv_init spec config handlers) actions).once, ?_⟩
  intro join ho hp
  simp [OpenSys.step, Bot.openEnter, ho, hp]

/-- Witness of C5: three events reach `open` on the bot "steady" before its
`open` handler settles; the handler is invoked once, the second and third
caller wait, and all three pass once the handler has settled. -/
theorem open_single_flight_witness :
    ((OpenSys.mk (Bot.new ⟨"steady", none⟩ .undefined steadyHandlers) []).run
        [.arrive true, .arrive false, .arrive true, .settle 0, .resume 1, .resume 2,
          .resume 0]).bot.openCalls ≤ 1
    ∧ ((OpenSys.mk (Bot.new ⟨"steady", none⟩ .undefined steadyHandlers) []).run
        [.arrive true, .arrive false, .arrive true, .settle 0, .resume 1, .resume 2,
          .resume 0]).bot.openCalls = 1
    ∧ (((OpenSys.mk (Bot.new ⟨"steady", none⟩ .undefined steadyHandlers) []).run
          [.arrive true]).step (.arrive false)).bot
        = ((OpenSys.mk (Bot.new ⟨"steady", none⟩ .undefined steadyHandlers) []).run
          [.arrive true]).bot
    ∧ (((OpenSys.mk (Bot.new ⟨"steady", none⟩ .undefined steadyHandlers) []).run
          [.arrive true]).step (.arrive false)).tasks
        = ((OpenSys.mk (Bot.new ⟨"steady", none⟩ .undefined steadyHandlers) []).run
          [.arrive true]).tasks ++ [⟨false, .waiting⟩] :=
  ⟨(open_single_flight ⟨"steady", none⟩ .undefined steadyHandlers
      [.arrive true, .arrive false, .arrive true, .settle 0, .resume 1, .resume 2,
        .resume 0]).1, rfl,
    (open_single_flight ⟨"steady", none⟩ .undefined steadyHandlers [.arrive true]).2
      false rfl rfl⟩


/-! ## A failed open -/

/-- C6 fails on the code.  When the `open` handler fails during `Bot.open`,
`opened` stays false but `opening` keeps the promise that was never resolved;
the next call of `Bot.open` returns that promise: it invokes no handler, changes
nothing and never settles, whatever the handler would answer this time. -/
theorem open_failure_blocks_retry (b : Bot) (f : Nat → Except String Unit) (e : String)
    (ho : b.opened = false) (hp : b.opening = none) (hh : b.handlers.open = some f)
    (hf : f b.openCalls = .error e) :
    (Bot.open b).outcome = .throw e
    ∧ (Bot.open b).state.opened = false
    ∧ (Bot.open b).state.opening = some .pending
    ∧ Bot.open (Bot.open b).state = ⟨.pending, (Bot.open b).state, []⟩ := by
  rw [Bot.open_handler_error ho hp hh hf]
  refine ⟨rfl, ho, rfl, ?_⟩
  exact Bot.open_waiting (p := .pending) (by exact ho) rfl

/-- Witness of C6's failure: the bot "flaky", whose `open` handler fails once
and would succeed the second time.  Its first join is answered with the error;
its second join invokes no handler, gets no reply and leaves the bot unopened. -/
theorem open_failure_blocks_retry_witness :
    flakyHandlers.open = some (fun n => if n = 0 then .error "open failed" else .ok ())
    ∧ ((Bot.open (Bot.new ⟨"flaky", none⟩ .undefined flakyHandlers)).outcome
        = .throw "open failed"
      ∧ (Bot.open (Bot.new ⟨"flaky", none⟩ .undefined flakyHandlers)).state.opened = false
      ∧ (Bot.open (Bot.new ⟨"flaky", none⟩ .undefined flakyHandlers)).state.opening
        = some .pending
      ∧ Bot.open (Bot.open (Bot.new ⟨"flaky", none⟩ .undefined flakyHandlers)).state
        = ⟨.pending, (Bot.open (Bot.new ⟨"flaky", none⟩ .undefined flakyHandlers)).state, []⟩)
    ∧ replies (Bots._onmessage world (event "flaky" "join" (some "c1") "r1") registry).calls
      = [⟨.str "r1", some "open failed", .undefined⟩]
    ∧ (Bots._onmessage world (event "flaky" "join" (some "c1") "r2")
        (Bots._onmessage world (event "flaky" "join" (some "c1") "r1") registry).state).calls
      = [.openCollection (some "c1")]
    ∧ (Bots._onmessage world (event "flaky" "join" (some "c1") "r2")
        (Bots._onmessage world (event "flaky" "join" (some "c1") "r1") registry).state).outcome
      = .pending :=
  ⟨rfl,
    open_failure_blocks_retry (Bot.new ⟨"flaky", none⟩ .undefined flakyHandlers)
      (fun n => if n = 0 then .error "open failed" else .ok ()) "open failed" rfl rfl rfl rfl,
    rfl, rfl, rfl⟩

/-! ## Leaving -/

theorem mapSet_self {β : Type} {l : List (String × β)} {k : String} {v : β}
    (h : mapGet l k = some v) : mapSet l k v = l := by
  induction l with
  | nil => simp [mapGet] at h
  | cons p rest ih =>
    rcases p with ⟨k1, v1⟩
    unfold mapGet at h
    unfold mapSet
    by_cases hk : k1 = k
    · simp only [hk, if_true] at h ⊢
      cases h
      rfl
    · simp only [hk, if_false] at h ⊢
      rw [ih h]

/-- C7 fails on the code.  `Bot.onleave` looks the session up under the
collection object, while `Bot.onjoin` stored it under `collection.key`: for a
bot that holds session `session` for `c`, the leave routine finds nothing,
calls nothing (no `close`) and leaves the entry for `c.key` in the map. -/
theorem onleave_keeps_session (b : Bot) (c : Collection) (session : Session)
    (h : mapGet b.sessions c.key = some session) :
    (Bot.onleave c b).outcome = .ok ()
    ∧ (Bot.onleave c b).calls = []
    ∧ mapGet (Bot.onleave c b).state.sessions c.key = some session := by
  rw [Bot.onleave_eq]
  exact ⟨rfl, rfl, h⟩

/-- Witness of C7's failure: "echo" joins "c1", which stores `echoSession`
(offering `close`) under "k1"; the leave event that follows calls no `close`,
replies success, and the registry it leaves is the one it found. -/
theorem onleave_keeps_session_witness :
    (Bot.onjoin c1 .undefined (Bot.new ⟨"echo", none⟩ .undefined echoHandlers)).outcome = .ok ()
    ∧ ((Bot.onleave c1
          (Bot.onjoin c1 .undefined (Bot.new ⟨"echo", none⟩ .undefined echoHandlers)).state).outcome
        = .ok ()
      ∧ (Bot.onleave c1
          (Bot.onjoin c1 .undefined (Bot.new ⟨"echo", none⟩ .undefined echoHandlers)).state).calls
        = []
      ∧ mapGet (Bot.onleave c1
          (Bot.onjoin c1 .undefined
            (Bot.new ⟨"echo", none⟩ .undefined echoHandlers)).state).state.sessions c1.key
        = some echoSession)
    ∧ (Bots._onmessage world (event "echo" "leave" (some "c1") "r2")
        (Bots._onmessage world (event "echo" "join" (some "c1") "r1") registry).state).calls
      = [.openCollection (some "c1"),
          .fetch "/bot/reply" "POST" [("X-Sonar-Bot-Session-Id", "t1")]
            (.reply ⟨.str "r2", none, .undefined⟩)]
    ∧ (Bots._onmessage world (event "echo" "leave" (some "c1") "r2")
        (Bots._onmessage world (event "echo" "join" (some "c1") "r1") registry).state).state
      = (Bots._onmessage world (event "echo" "join" (some "c1") "r1") registry).state :=
  ⟨rfl,
    onleave_keeps_session
      (Bot.onjoin c1 .undefined (Bot.new ⟨"echo", none⟩ .undefined echoHandlers)).state
      c1 echoSession rfl,
    rfl, rfl⟩


theorem Bots.replies_of_ok {w : World} {message : Message} {s : Bots} {bot : Bot} {v : Val}
    (hb : mapGet s.bots message.bot = some bot)
    (hop : message.op = "join" ∨ message.op = "leave" ∨ message.op = "command")
    (h : (Bots.step w message bot s).outcome = .ok v) :
    replies (Bots._onmessage w message s).calls = [⟨message.requestId, none, v⟩]
    ∨ ∃ e headers, replies (Bots._onmessage w message s).calls
          = [⟨message.requestId, none, v⟩, ⟨message.requestId, some e, .undefined⟩]
        ∧ w.fetch "/bot/reply" "POST" headers (.reply ⟨message.requestId, none, v⟩)
          = .error e := by
  rw [Bots.onmessage_of_ok hb hop h]
  cases hf : w.fetch "/bot/reply" "POST" (Bots.step w message bot s).state.getHeaders
      (.reply ⟨message.requestId, none, v⟩) with
  | ok u =>
    left
    simp only [replies_append, Bots.step_quiet w message bot s, List.nil_append]
    simp [replies, Call.asReply]
  | error e =>
    right
    refine ⟨e, _, ?_, hf⟩
    have hc := replies_catchCalls w message.requestId (Bots.step w message bot s).state e
    simp only [replies_append, Bots.step_quiet w message bot s, List.nil_append]
    simp only [replies] at hc ⊢
    simp [Call.asReply, hc]

theorem Bots.step_leave_ok {w : World} {message : Message} {s : Bots} {bot : Bot}
    {c : Collection} (hop : message.op = "leave")
    (hc : w.openCollection message.data.collection = .ok c) :
    Bots.step w message bot s =
      ⟨.ok .undefined, { s with bots := mapSet s.bots message.bot bot },
        [.openCollection message.data.collection]⟩ := by
  rw [Bots.step_leave hop, M.bind_ok (a := c) (by simp [hc])]
  simp [hc, M.bind, Bots.onBot, Bot.onleave_eq]

/-- C8.  For a registered bot that has no session for the collection `c` to
which the event's `data.collection` resolves, a leave event calls no session
`close`, leaves the registry (and so the bot's sessions map) as it was, and is
answered with the success reply `{ requestId }`, without error; a second reply
follows only if the control-channel call of that reply fails. -/
theorem onmessage_leave_without_session (w : World) (message : Message) (s : Bots) (bot : Bot)
    (c : Collection) (hb : mapGet s.bots message.bot = some bot) (hop : message.op = "leave")
    (hc : w.openCollection message.data.collection = .ok c)
    (_hn : mapGet bot.sessions c.key = none) :
    (∀ sid, Call.sessionClose sid ∉ (Bots._onmessage w message s).calls)
    ∧ (Bots._onmessage w message s).state = s
    ∧ (replies (Bots._onmessage w message s).calls = [⟨message.requestId, none, .undefined⟩]
      ∨ ∃ e headers, replies (Bots._onmessage w message s).calls
            = [⟨message.requestId, none, .undefined⟩,
                ⟨message.requestId, some e, .undefined⟩]
          ∧ w.fetch "/bot/reply" "POST" headers
              (.reply ⟨message.requestId, none, .undefined⟩) = .error e) := by
  have hop3 : message.op = "join" ∨ message.op = "leave" ∨ message.op = "command" :=
    Or.inr (Or.inl hop)
  have hstep : Bots.step w message bot s = _ := Bots.step_leave_ok hop hc
  have hok : (Bots.step w message bot s).outcome = .ok .undefined := by rw [hstep]
  refine ⟨?_, ?_, Bots.replies_of_ok hb hop3 hok⟩
  · intro sid
    rw [Bots.onmessage_of_ok hb hop3 hok, hstep]
    unfold Bots.catchCalls
    simp only [List.mem_append, List.mem_cons, List.mem_singleton, not_or]
    refine ⟨by simp, by simp, ?_⟩
    split
    · simp
    · split <;> simp
  · rw [Bots.onmessage_of_ok hb hop3 hok, hstep, mapSet_self hb]

/-- Witness of C8: "echo" has joined nothing and is asked to leave "c1". -/
theorem onmessage_leave_without_session_witness :
    (∀ sid, Call.sessionClose sid ∉
        (Bots._onmessage world (event "echo" "leave" (some "c1") "r4") registry).calls)
    ∧ (Bots._onmessage world (event "echo" "leave" (some "c1") "r4") registry).state = registry
    ∧ (replies (Bots._onmessage world (event "echo" "leave" (some "c1") "r4") registry).calls
        = [⟨(event "echo" "leave" (some "c1") "r4").requestId, none, .undefined⟩]
      ∨ ∃ e headers,
        replies (Bots._onmessage world (event "echo" "leave" (some "c1") "r4") registry).calls
            = [⟨(event "echo" "leave" (some "c1") "r4").requestId, none, .undefined⟩,
                ⟨(event "echo" "leave" (some "c1") "r4").requestId, some e, .undefined⟩]
          ∧ world.fetch "/bot/reply" "POST" headers
              (.reply ⟨(event "echo" "leave" (some "c1") "r4").requestId, none, .undefined⟩)
            = .error e) :=
  onmessage_leave_without_session world (event "echo" "leave" (some "c1") "r4") registry
    (Bot.new ⟨"echo", none⟩ .undefined echoHandlers) c1 rfl rfl rfl rfl

/-! ## Commands -/

theorem Bot.open_handlers (b : Bot) : (Bot.open b).state.handlers = b.handlers := by
  rcases Bot.open_cases b with h | h | h | h | ⟨f, h⟩ | ⟨f, e, h⟩ <;> rw [h.1]

theorem Bot.open_sessions (b : Bot) : (Bot.open b).state.sessions = b.sessions := by
  rcases Bot.open_cases b with h | h | h | h | ⟨f, h⟩ | ⟨f, e, h⟩ <;> rw [h.1]

theorem Bot.oncommand_of_open {w : World} {c : Option Collection} {command args : Val}
    {b : Bot} (ho : (Bot.open b).outcome = .ok ()) :
    (Bot.oncommand w c command args b).outcome =
      if Bot.noCollectionGiven c then
        (match b.handlers.oncommand command args with
          | .ok v => .ok v
          | .error e => .throw e)
      else
        match w.env with
        | none => .throw (referenceError "env")
        | some _ =>
          match b.activeSession c with
          | none => .throw "Bot did not join collection"
          | some session =>
            match session.oncommand with
            | none => .throw "Bot cannot handle commands"
            | some f =>
              (match f command args with
                | .ok v => .ok v
                | .error e => .throw e) := by
  have hs : ∀ b2 : Bot, b2.sessions = b.sessions → b2.activeSession c = b.activeSession c := by
    intro b2 h
    cases c <;> simp [Bot.activeSession, Bot.sessionsGet, h]
  unfold Bot.oncommand
  simp only [M.bind_eq]
  rw [M.bind_ok ho, M.get_bind]
  simp only [Bot.open_handlers, hs _ (Bot.open_sessions b)]
  split
  · cases b.handlers.oncommand command args <;> rfl
  · cases w.env with
    | none => rfl
    | some x =>
      cases b.activeSession c with
      | none => rfl
      | some session =>
        cases hf : session.oncommand with
        | none => simp [hf]
        | some f => cases hv : f command args <;> simp [hf, hv]


theorem Bot.open_calls (b : Bot) : (Bot.open b).calls = [] ∨ (Bot.open b).calls = [.handlerOpen] := by
  rcases Bot.open_cases b with h | h | h | h | ⟨f, h⟩ | ⟨f, e, h⟩ <;> simp [h.1]

theorem Bot.oncommand_env_calls {w : World} {c : Collection} {command args : Val} {b : Bot}
    (ho : (Bot.open b).outcome = .ok ()) (henv : w.env = none) :
    (Bot.oncommand w (some c) command args b).calls = (Bot.open b).calls := by
  unfold Bot.oncommand
  simp only [M.bind_eq]
  rw [M.bind_ok ho, M.get_bind]
  simp [Bot.noCollectionGiven, henv]

theorem Bots.step_command_calls {w : World} {message : Message} {s : Bots} {bot : Bot}
    {c : Collection} (hop : message.op = "command")
    (ht : truthy message.data.collection = true)
    (hc : w.openCollection message.data.collection = .ok c) :
    (Bots.step w message bot s).calls = .openCollection message.data.collection ::
      (Bot.oncommand w (some c) message.data.command message.data.args bot).calls := by
  rw [Bots.step_command_collection hop ht, M.bind_ok (a := c) (by simp [hc])]
  simp [hc, Bots.onBot]

/-- C9 fails on the code.  For a registered bot whose `open` succeeds and a
command event whose `data.collection` resolves to a collection `c` the bot has
not joined, with no global `env` (as in Node): `Bot.oncommand` fails while it
evaluates `env.collection` on line 226, before the session test of line 227.
No command handler is invoked and the only reply is an error reply, but its
error is the `ReferenceError` message, not "Bot did not join collection". -/
theorem oncommand_not_joined_reference_error (w : World) (message : Message) (s : Bots)
    (bot : Bot) (c : Collection) (hb : mapGet s.bots message.bot = some bot)
    (hop : message.op = "command") (ht : truthy message.data.collection = true)
    (hc : w.openCollection message.data.collection = .ok c)
    (_hn : mapGet bot.sessions c.key = none) (henv : w.env = none)
    (ho : (Bot.open bot).outcome = .ok ()) :
    (Bot.oncommand w (some c) message.data.command message.data.args bot).outcome
      = .throw "env is not defined"
    ∧ replies (Bots._onmessage w message s).calls
      = [⟨message.requestId, some "env is not defined", .undefined⟩]
    ∧ (∀ cmd args, Call.handlerOncommand cmd args ∉ (Bots._onmessage w message s).calls)
    ∧ (∀ sid cmd args, Call.sessionOncommand sid cmd args ∉ (Bots._onmessage w message s).calls)
    ∧ "env is not defined" ≠ "Bot did not join collection" := by
  have hthrow : (Bot.oncommand w (some c) message.data.command message.data.args bot).outcome
      = .throw "env is not defined" := by
    rw [Bot.oncommand_of_open ho]
    simp only [Bot.noCollectionGiven, Option.isNone_some, henv]
    rfl
  have hcc : Bots.CommandCollection w message (some c) := Or.inl ⟨ht, c, hc, rfl⟩
  have hfail : Bots.RoutineFails w message bot "env is not defined" :=
    Or.inr (Or.inr ⟨hop, Or.inr ⟨some c, hcc, hthrow⟩⟩)
  have hop3 : message.op = "join" ∨ message.op = "leave" ∨ message.op = "command" :=
    Or.inr (Or.inr hop)
  have hcalls : ∀ x ∈ (Bots._onmessage w message s).calls,
      (∀ cmd args, x ≠ .handlerOncommand cmd args)
      ∧ ∀ sid cmd args, x ≠ .sessionOncommand sid cmd args := by
    intro x hx
    rw [Bots.onmessage_of_throw hb hop3 (Bots.step_of_fails s hfail),
      Bots.step_command_calls hop ht hc, Bot.oncommand_env_calls ho henv] at hx
    simp only [Bots.catchCalls, List.mem_append, List.mem_cons, List.mem_singleton] at hx
    rcases hx with (h | h) | (h | h | h) | h
    · simp [h]
    · rcases Bot.open_calls bot with h2 | h2
      · simp [h2] at h
      · simp [h2] at h; simp [h]
    · simp [h]
    · simp [h]
    · simp at h
    · split at h
      · simp at h
      · simp at h; simp [h]
  refine ⟨hthrow, ?_, ?_, ?_, by decide⟩
  · rw [Bots.onmessage_of_throw hb hop3 (Bots.step_of_fails s hfail)]
    simp only [replies_append, Bots.step_quiet w message bot s, replies_catchCalls,
      List.nil_append]
  · intro cmd args hx
    exact (hcalls _ hx).1 cmd args rfl
  · intro sid cmd args hx
    exact (hcalls _ hx).2 sid cmd args rfl

/-- Witness of C9's failure: "echo" receives a command for "c1", which it has
not joined. -/
theorem oncommand_not_joined_reference_error_witness :
    (Bot.oncommand world (some c1) (event "echo" "command" (some "c1") "r5").data.command
        (event "echo" "command" (some "c1") "r5").data.args
        (Bot.new ⟨"echo", none⟩ .undefined echoHandlers)).outcome
      = .throw "env is not defined"
    ∧ replies (Bots._onmessage world (event "echo" "command" (some "c1") "r5") registry).calls
      = [⟨(event "echo" "command" (some "c1") "r5").requestId, some "env is not defined",
          .undefined⟩]
    ∧ (∀ cmd args, Call.handlerOncommand cmd args ∉
        (Bots._onmessage world (event "echo" "command" (some "c1") "r5") registry).calls)
    ∧ (∀ sid cmd args, Call.sessionOncommand sid cmd args ∉
        (Bots._onmessage world (event "echo" "command" (some "c1") "r5") registry).calls)
    ∧ "env is not defined" ≠ "Bot did not join collection" :=
  oncommand_not_joined_reference_error world (event "echo" "command" (some "c1") "r5") registry
    (Bot.new ⟨"echo", none⟩ .undefined echoHandlers) c1 rfl rfl rfl rfl rfl rfl rfl

/-- With a global `env` in scope, line 226 passes and the command for a
collection that was not joined fails on line 227. -/
theorem Bot.oncommand_not_joined_of_env {w : World} {c : Collection} {command args : Val}
    {b : Bot} {x : Val} (ho : (Bot.open b).outcome = .ok ()) (henv : w.env = some x)
    (hn : mapGet b.sessions c.key = none) :
    (Bot.oncommand w (some c) command args b).outcome
      = .throw "Bot did not join collection" := by
  rw [Bot.oncommand_of_open ho]
  simp [Bot.noCollectionGiven, henv, Bot.activeSession, Bot.sessionsGet, hn]

/-- C10.  For a registered bot whose `open` succeeds and whose
`handlers.oncommand` returns `v` for the event's `command` and `args`, a command
event without `data.collection` is answered with `{ requestId, result: v }`,
without error; a second reply follows only if the control-channel call of that
reply fails. -/
theorem onmessage_command_result (w : World) (message : Message) (s : Bots) (bot : Bot)
    (v : Val) (hb : mapGet s.bots message.bot = some bot) (hop : message.op = "command")
    (hc : truthy message.data.collection = false)
    (ho : (Bot.open bot).outcome = .ok ())
    (hv : bot.handlers.oncommand message.data.command message.data.args = .ok v) :
    replies (Bots._onmessage w message s).calls = [⟨message.requestId, none, v⟩]
    ∨ ∃ e headers, replies (Bots._onmessage w message s).calls
          = [⟨message.requestId, none, v⟩, ⟨message.requestId, some e, .undefined⟩]
        ∧ w.fetch "/bot/reply" "POST" headers (.reply ⟨message.requestId, none, v⟩)
          = .error e := by
  have hop3 : message.op = "join" ∨ message.op = "leave" ∨ message.op = "command" :=
    Or.inr (Or.inr hop)
  have hok : (Bots.step w message bot s).outcome = .ok v := by
    rw [(@Bots.step_of_command w message bot s none hop (Or.inr ⟨hc, rfl⟩)).1,
      Bot.oncommand_of_open ho]
    simp [Bot.noCollectionGiven, hv]
  exact Bots.replies_of_ok hb hop3 hok

/-- Witness of C10: the round trip of the bot "echo", whose `oncommand`
returns its `args`: args `{x: 1}` and requestId "r1" give the single reply
`{ requestId: "r1", result: {x: 1} }`. -/
theorem onmessage_command_result_witness :
    echoHandlers.oncommand (.str "say") (.obj [("x", .num 1)]) = .ok (.obj [("x", .num 1)])
    ∧ replies (Bots._onmessage world (event "echo" "command" none "r1") registry).calls
      = [⟨.str "r1", none, .obj [("x", .num 1)]⟩]
    ∧ (replies (Bots._onmessage world (event "echo" "command" none "r1") registry).calls
        = [⟨(event "echo" "command" none "r1").requestId, none, .obj [("x", .num 1)]⟩]
      ∨ ∃ e headers,
        replies (Bots._onmessage world (event "echo" "command" none "r1") registry).calls
            = [⟨(event "echo" "command" none "r1").requestId, none, .obj [("x", .num 1)]⟩,
              ⟨(event "echo" "command" none "r1").requestId, some e, .undefined⟩]
          ∧ world.fetch "/bot/reply" "POST" headers
              (.reply ⟨(event "echo" "command" none "r1").requestId, none,
                .obj [("x", .num 1)]⟩) = .error e) :=
  ⟨rfl, rfl,
    onmessage_command_result world (event "echo" "command" none "r1") registry
      (Bot.new ⟨"echo", none⟩ .undefined echoHandlers) (.obj [("x", .num 1)]) rfl rfl rfl rfl
      rfl⟩


/-! ## Registration -/

theorem Bots.fetch_ok {w : World} {url method : String} {body : Body} {s : Bots} {v : Val}
    (h : w.fetch ("/bot" ++ url) method s.getHeaders body = .ok v) :
    Bots.fetch w url method body s
      = ⟨.ok v, s, [.fetch ("/bot" ++ url) method s.getHeaders body]⟩ := by
  simp [Bots.fetch, M.bind_eq, M.bind, h]

theorem Bots.fetch_error {w : World} {url method : String} {body : Body} {s : Bots} {e : String}
    (h : w.fetch ("/bot" ++ url) method s.getHeaders body = .error e) :
    Bots.fetch w url method body s
      = ⟨.throw e, s, [.fetch ("/bot" ++ url) method s.getHeaders body]⟩ := by
  simp [Bots.fetch, M.bind_eq, M.bind, h]

theorem Bots.register_primitive (w : World) (name : String) (handlers : Handlers) (s : Bots) :
    Bots.register w name .primitive handlers s = ⟨.throw "Spec must be an object", s, []⟩ := rfl

theorem Bots.register_null (w : World) (name : String) (handlers : Handlers) (s : Bots) :
    Bots.register w name .null handlers s = ⟨.throw setNameOfNullError, s, []⟩ := rfl

theorem Bots.register_announce_error {w : World} {name : String} {spec : BotSpec}
    {handlers : Handlers} {s : Bots} {e : String}
    (h : w.fetch "/bot/announce" "POST" s.getHeaders (.announce { spec with name := name })
      = .error e) :
    Bots.register w name (.object spec) handlers s
      = ⟨.throw e, s,
          [.fetch "/bot/announce" "POST" s.getHeaders (.announce { spec with name := name })]⟩ := by
  have hu : "/bot" ++ "/announce" = "/bot/announce" := by decide
  unfold Bots.register
  simp only [M.bind_eq]
  rw [M.bind_throw (e := e) (by rw [Bots.fetch_error (by rw [hu]; exact h)])]
  rw [Bots.fetch_error (by rw [hu]; exact h), hu]

theorem Bots.register_announce_nullish {w : World} {name : String} {spec : BotSpec}
    {handlers : Handlers} {s : Bots} {res : Val}
    (h : w.fetch "/bot/announce" "POST" s.getHeaders (.announce { spec with name := name })
      = .ok res) (hn : res.nullish = true) :
    Bots.register w name (.object spec) handlers s
      = ⟨.throw destructureError, s,
          [.fetch "/bot/announce" "POST" s.getHeaders (.announce { spec with name := name })]⟩ := by
  have hu : "/bot" ++ "/announce" = "/bot/announce" := by decide
  unfold Bots.register
  simp only [M.bind_eq]
  rw [M.bind_ok (a := res) (by rw [Bots.fetch_ok (by rw [hu]; exact h)])]
  rw [Bots.fetch_ok (by rw [hu]; exact h), hu]
  simp [hn]

theorem Bots.register_announce_ok {w : World} {name : String} {spec : BotSpec}
    {handlers : Handlers} {s : Bots} {res : Val}
    (h : w.fetch "/bot/announce" "POST" s.getHeaders (.announce { spec with name := name })
      = .ok res) (hn : res.nullish = false) :
    Bots.register w name (.object spec) handlers s
      = ⟨.ok (),
          { bots := mapSet s.bots name
              (Bot.new { spec with name := name } (res.field "config") handlers)
            _sessionId := (res.field "sessionId").asSessionId
            _init := true },
          .fetch "/bot/announce" "POST" s.getHeaders (.announce { spec with name := name }) ::
            if s._init then []
            else [.eventSource (w.endpoint ++ "/bot/events")
              (w.authHeaders ++
                Bots.getHeaders ⟨s.bots, (res.field "sessionId").asSessionId, true⟩)]⟩ := by
  have hu : "/bot" ++ "/announce" = "/bot/announce" := by decide
  unfold Bots.register
  simp only [M.bind_eq]
  rw [M.bind_ok (a := res) (by rw [Bots.fetch_ok (by rw [hu]; exact h)])]
  rw [Bots.fetch_ok (by rw [hu]; exact h), hu]
  rcases Bool.eq_false_or_eq_true s._init with hi | hi
  · simp [hn, hi, M.bind, Bots._initListener, M.bind_eq, M.pure_eq]
  · simp [hn, hi, M.bind, Bots._initListener, M.bind_eq, M.pure_eq]

theorem mapGet_mapSet_self {β : Type} (l : List (String × β)) (k : String) (v : β) :
    mapGet (mapSet l k v) k = some v := by
  induction l with
  | nil => simp [mapSet, mapGet]
  | cons p rest ih =>
    rcases p with ⟨k1, v1⟩
    unfold mapSet
    by_cases hk : k1 = k
    · simp [hk, mapGet]
    · simp [hk, mapGet, ih]

theorem streams_nil : streams [] = 0 := rfl

/-- The ways a call of `Bots.register` can end. -/
theorem Bots.register_cases (w : World) (name : String) (spec : SpecValue)
    (handlers : Handlers) (s : Bots) :
    ((∃ e, (Bots.register w name spec handlers s).outcome = .throw e)
      ∧ (Bots.register w name spec handlers s).state = s
      ∧ streams (Bots.register w name spec handlers s).calls = 0)
    ∨ ((Bots.register w name spec handlers s).outcome = .ok ()
      ∧ (Bots.register w name spec handlers s).state._init = true
      ∧ streams (Bots.register w name spec handlers s).calls = (if s._init then 0 else 1)
      ∧ ∃ sp res, spec = .object sp
        ∧ w.fetch "/bot/announce" "POST" s.getHeaders (.announce { sp with name := name })
          = .ok res
        ∧ (Bots.register w name spec handlers s).state._sessionId
          = (res.field "sessionId").asSessionId
        ∧ (Bots.register w name spec handlers s).state.bots
          = mapSet s.bots name
            (Bot.new { sp with name := name } (res.field "config") handlers)) := by
  cases spec with
  | primitive => exact Or.inl ⟨⟨_, rfl⟩, rfl, rfl⟩
  | null => exact Or.inl ⟨⟨_, rfl⟩, rfl, rfl⟩
  | object sp =>
    cases h : w.fetch "/bot/announce" "POST" s.getHeaders (.announce { sp with name := name }) with
    | error e =>
      rw [Bots.register_announce_error h]
      exact Or.inl ⟨⟨_, rfl⟩, rfl, by simp [streams, Call.isEventSource]⟩
    | ok res =>
      rcases Bool.eq_false_or_eq_true res.nullish with hn | hn
      · rw [Bots.register_announce_nullish h hn]
        exact Or.inl ⟨⟨_, rfl⟩, rfl, by simp [streams, Call.isEventSource]⟩
      · rw [Bots.register_announce_ok h hn]
        refine Or.inr ⟨rfl, rfl, ?_, sp, res, rfl, h, rfl, rfl⟩
        rcases Bool.eq_false_or_eq_true s._init with hi | hi <;>
          simp [hi, streams, Call.isEventSource]

/-- C12.  If `Bots.register` fails because `spec` is not an object (a value
whose `typeof` is not "object", or `null`) or because the `/announce` call
fails, the call is rejected and the registry it leaves is the one it found: same
bots map, same session id, same listener flag. -/
theorem register_failure_keeps_state (w : World) (name : String) (spec : SpecValue)
    (handlers : Handlers) (s : Bots)
    (h : spec = .primitive ∨ spec = .null
      ∨ ∃ sp e, spec = .object sp
        ∧ w.fetch "/bot/announce" "POST" s.getHeaders (.announce { sp with name := name })
          = .error e) :
    (∃ e, (Bots.register w name spec handlers s).outcome = .throw e)
    ∧ (Bots.register w name spec handlers s).state = s
    ∧ (Bots.register w name spec handlers s).state.bots = s.bots
    ∧ (Bots.register w name spec handlers s).state._sessionId = s._sessionId
    ∧ (Bots.register w name spec handlers s).state._init = s._init := by
  rcases h with rfl | rfl | ⟨sp, e, rfl, he⟩
  · exact ⟨⟨_, rfl⟩, rfl, rfl, rfl, rfl⟩
  · exact ⟨⟨_, rfl⟩, rfl, rfl, rfl, rfl⟩
  · rw [Bots.register_announce_error he]
    exact ⟨⟨_, rfl⟩, rfl, rfl, rfl, rfl⟩

/-- Witness of C12: on the registry of "echo" and "flaky", registering with the
control channel down, with `null` and with a value that is no object. -/
theorem register_failure_keeps_state_witness :
    ((∃ e, (Bots.register downWorld "late" (.object ⟨"late", none⟩) echoHandlers
          registry).outcome = .throw e)
      ∧ (Bots.register downWorld "late" (.object ⟨"late", none⟩) echoHandlers registry).state
        = registry
      ∧ (Bots.register downWorld "late" (.object ⟨"late", none⟩) echoHandlers
          registry).state.bots = registry.bots
      ∧ (Bots.register downWorld "late" (.object ⟨"late", none⟩) echoHandlers
          registry).state._sessionId = registry._sessionId
      ∧ (Bots.register downWorld "late" (.object ⟨"late", none⟩) echoHandlers
          registry).state._init = registry._init)
    ∧ (Bots.register world "late" .null echoHandlers registry).outcome
      = .throw setNameOfNullError
    ∧ (Bots.register world "late" .null echoHandlers registry).state = registry
    ∧ (Bots.register world "late" .primitive echoHandlers registry).outcome
      = .throw "Spec must be an object"
    ∧ (Bots.register world "late" .primitive echoHandlers registry).state = registry :=
  ⟨register_failure_keeps_state downWorld "late" (.object ⟨"late", none⟩) echoHandlers registry
      (Or.inr (Or.inr ⟨⟨"late", none⟩, "transport down", rfl, rfl⟩)),
    rfl, rfl, rfl, rfl⟩

theorem Bots.registerAll_streams_of_init (regs : List Registration) {s : Bots}
    (hs : s._init = true) :
    (Bots.registerAll regs s).map (fun r => streams r.calls)
      = (Bots.registerAll regs s).map fun _ => 0 := by
  induction regs generalizing s with
  | nil => rfl
  | cons r rest ih =>
    simp only [Bots.registerAll, List.map_cons]
    rcases Bots.register_cases r.world r.name r.spec r.handlers s with
      ⟨_, hst, hc⟩ | ⟨_, hi, hc, _⟩
    · rw [hc, ih (by rw [hst]; exact hs)]
    · rw [hc, ih hi]; simp [hs]

theorem Bots.registerAll_streams (regs : List Registration) {s : Bots} (hs : s._init = false) :
    (Bots.registerAll regs s).map (fun r => streams r.calls)
      = openedByFirstSuccess (Bots.registerAll regs s) := by
  induction regs generalizing s with
  | nil => rfl
  | cons r rest ih =>
    simp only [Bots.registerAll, List.map_cons, openedByFirstSuccess]
    rcases Bots.register_cases r.world r.name r.spec r.handlers s with
      ⟨⟨e, he⟩, hst, hc⟩ | ⟨hok, hi, hc, _⟩
    · rw [hc, he, ih (by rw [hst]; exact hs)]
    · rw [hc, hok, Bots.registerAll_streams_of_init rest hi]; simp [hs]

theorem openedByFirstSuccess_sum (rs : List (Ran Bots Unit)) :
    (openedByFirstSuccess rs).sum ≤ 1 := by
  induction rs with
  | nil => simp [openedByFirstSuccess]
  | cons r rest ih =>
    unfold openedByFirstSuccess
    cases r.outcome with
    | ok u =>
      have : (List.map (fun _ => 0) rest : List Nat).sum = 0 := by
        induction rest with
        | nil => rfl
        | cons a t iht => simp
      simp
    | throw e => simpa using ih
    | pending => simpa using ih

theorem mapCount_mapSet {β : Type} (l : List (String × β)) (k : String) (v : β) :
    mapCount (mapSet l k v) k = if mapCount l k = 0 then 1 else mapCount l k := by
  induction l with
  | nil => simp [mapSet, mapCount]
  | cons p rest ih =>
    rcases p with ⟨k1, v1⟩
    unfold mapSet
    by_cases hk : k1 = k
    · simp [hk, mapCount]
    · have h1 : mapCount ((k1, v1) :: mapSet rest k v) k = mapCount (mapSet rest k v) k := by
        simp [mapCount, hk]
      have h2 : mapCount ((k1, v1) :: rest) k = mapCount rest k := by
        simp [mapCount, hk]
      simp only [hk, if_false]
      rw [h1, h2, ih]

theorem mapCount_mapSet_of_le {β : Type} {l : List (String × β)} {k : String} (v : β)
    (h : mapCount l k ≤ 1) : mapCount (mapSet l k v) k = 1 := by
  rw [mapCount_mapSet]
  split
  · rfl
  · omega

theorem mapCount_mapSet_ne {β : Type} (l : List (String × β)) {k k2 : String} (v : β)
    (h : k2 ≠ k) : mapCount (mapSet l k v) k2 = mapCount l k2 := by
  induction l with
  | nil => simp [mapSet, mapCount, Ne.symm h]
  | cons p rest ih =>
    rcases p with ⟨k1, v1⟩
    unfold mapSet
    by_cases hk : k1 = k
    · subst hk
      simp [mapCount, Ne.symm h]
    · simp only [hk, if_false]
      by_cases hk2 : k1 = k2
      · have h1 : mapCount ((k1, v1) :: mapSet rest k v) k2
            = mapCount (mapSet rest k v) k2 + 1 := by simp [mapCount, hk2]
        have h2 : mapCount ((k1, v1) :: rest) k2 = mapCount rest k2 + 1 := by
          simp [mapCount, hk2]
        rw [h1, h2, ih]
      · have h1 : mapCount ((k1, v1) :: mapSet rest k v) k2 = mapCount (mapSet rest k v) k2 := by
          simp [mapCount, hk2]
        have h2 : mapCount ((k1, v1) :: rest) k2 = mapCount rest k2 := by
          simp [mapCount, hk2]
        rw [h1, h2, ih]

theorem mapCount_mapSet_le {β : Type} {l : List (String × β)} (k : String) (v : β)
    (h : ∀ key, mapCount l key ≤ 1) : ∀ key, mapCount (mapSet l k v) key ≤ 1 := by
  intro key
  by_cases hk : key = k
  · rw [hk, mapCount_mapSet_of_le v (h k)]
  · rw [mapCount_mapSet_ne l v hk]; exact h key

theorem Bots.registerAll_bots (regs : List Registration) (s : Bots)
    (hs : ∀ key, mapCount s.bots key ≤ 1) :
    List.Forall₂
      (fun reg r => r.outcome = .ok () →
        mapCount r.state.bots reg.name = 1
        ∧ ∃ sp config, reg.spec = .object sp
          ∧ mapGet r.state.bots reg.name
            = some (Bot.new { sp with name := reg.name } config reg.handlers))
      regs (Bots.registerAll regs s) := by
  induction regs generalizing s with
  | nil => exact List.Forall₂.nil
  | cons r rest ih =>
    rcases Bots.register_cases r.world r.name r.spec r.handlers s with
      ⟨⟨e, he⟩, hst, _⟩ | ⟨_, _, _, sp, res, hsp, _, _, hb⟩
    · refine List.Forall₂.cons ?_ (ih _ (by rw [hst]; exact hs))
      intro hok
      rw [he] at hok; cases hok
    · refine List.Forall₂.cons ?_ (ih _ (by rw [hb]; exact mapCount_mapSet_le _ _ hs))
      intro _
      exact ⟨by rw [hb]; exact mapCount_mapSet_of_le _ (hs _),
        sp, res.field "config", hsp, by rw [hb, mapGet_mapSet_self]⟩

/-- C13.  Over any sequence of `register` calls on a new `Bots` instance, run
one after the other: the push stream is opened exactly once, by the first call
that succeeds, and by no other call (so at most once in all); and every call
that succeeds leaves, as the only entry under its name, the bot it has just
constructed. -/
theorem stream_opened_once (regs : List Registration) :
    (Bots.registerAll regs Bots.new).map (fun r => streams r.calls)
      = openedByFirstSuccess (Bots.registerAll regs Bots.new)
    ∧ ((Bots.registerAll regs Bots.new).map fun r => streams r.calls).sum ≤ 1
    ∧ List.Forall₂
        (fun reg r => r.outcome = .ok () →
          mapCount r.state.bots reg.name = 1
          ∧ ∃ sp config, reg.spec = .object sp
            ∧ mapGet r.state.bots reg.name
              = some (Bot.new { sp with name := reg.name } config reg.handlers))
        regs (Bots.registerAll regs Bots.new) := by
  have h := Bots.registerAll_streams regs (s := Bots.new) rfl
  refine ⟨h, ?_, Bots.registerAll_bots regs Bots.new (fun _ => Nat.zero_le _)⟩
  rw [h]
  exact openedByFirstSuccess_sum _

/-! ## The message listener -/

theorem M.tryCatch_throw {σ α : Type} {body : M σ α} (handler : String → M σ α) {s : σ}
    {e : String} (h : (body s).outcome = .throw e) :
    M.tryCatch body handler s =
      ⟨(handler e (body s).state).outcome, (handler e (body s).state).state,
        (body s).calls ++ (handler e (body s).state).calls⟩ := by
  simp [M.tryCatch, h]

theorem Bots.messageListener_malformed {w : World} {parse : String → Except String Message}
    {data : String} {e : String} (h : parse data = .error e) (s : Bots) :
    Bots.messageListener w parse data s = ⟨.ok (), s, []⟩ := by
  unfold Bots.messageListener
  rw [M.tryCatch_throw (e := e)]
  · simp [M.bind_eq, M.bind, h, M.ofExcept, M.pure_eq]
  · simp [M.bind_eq, M.bind, h, M.ofExcept]

theorem Workspace.listener_malformed {σ : Type} {parse : String → Except String Message}
    {data : String} {e : String} (h : parse data = .error e)
    (onmessage : Option (Message → M σ Unit)) (s : σ) :
    Workspace.messageListener parse onmessage data s = ⟨.ok (), s, []⟩ := by
  unfold Workspace.messageListener
  rw [M.tryCatch_throw (e := e)]
  · simp [M.bind_eq, M.bind, h, M.ofExcept, M.pure_eq]
  · simp [M.bind_eq, M.bind, h, M.ofExcept]

/-- C15.  For a raw payload on which `JSON.parse` throws, the message listener
of `Bots._initListener` (and that of `Workspace.createEventSource`) returns
without raising, makes no call at all, so no reply call, and leaves the state
as it was; the payload that follows is therefore handled exactly as if the
malformed one had never arrived. -/
theorem malformed_payload_is_dropped (w : World) (parse : String → Except String Message)
    (data : String) (e : String) (s : Bots) (h : parse data = .error e) :
    Bots.messageListener w parse data s = ⟨.ok (), s, []⟩
    ∧ replies (Bots.messageListener w parse data s).calls = []
    ∧ (∀ next, Bots.messageListener w parse next (Bots.messageListener w parse data s).state
        = Bots.messageListener w parse next s)
    ∧ ∀ (σ : Type) (onmessage : Option (Message → M σ Unit)) (t : σ),
        Workspace.messageListener parse onmessage data t = ⟨.ok (), t, []⟩ := by
  rw [Bots.messageListener_malformed h]
  exact ⟨rfl, rfl, fun _ => rfl, fun _ onmessage t =>
    Workspace.listener_malformed h onmessage t⟩

/-- Witness of C15: a keep-alive line arrives on the stream of the registry of
"echo" and "flaky"; nothing happens, and the command that follows gets its
reply. -/
theorem malformed_payload_is_dropped_witness :
    parseKnown ":keep-alive" = .error "Unexpected token in JSON"
    ∧ (Bots.messageListener world parseKnown ":keep-alive" registry = ⟨.ok (), registry, []⟩
      ∧ replies (Bots.messageListener world parseKnown ":keep-alive" registry).calls = []
      ∧ (∀ next, Bots.messageListener world parseKnown next
            (Bots.messageListener world parseKnown ":keep-alive" registry).state
          = Bots.messageListener world parseKnown next registry)
      ∧ ∀ (σ : Type) (onmessage : Option (Message → M σ Unit)) (t : σ),
          Workspace.messageListener parseKnown onmessage ":keep-alive" t = ⟨.ok (), t, []⟩)
    ∧ replies (Bots.messageListener world parseKnown "command echo r1"
        (Bots.messageListener world parseKnown ":keep-alive" registry).state).calls
      = [⟨.str "r1", none, .obj [("x", .num 1)]⟩] :=
  ⟨rfl,
    malformed_payload_is_dropped world parseKnown ":keep-alive" "Unexpected token in JSON"
      registry rfl,
    rfl⟩


/-! ## The session header -/

section Header

variable {σ α β γ : Type}

theorem fetchHeaders_append (xs ys : List Call) :
    fetchHeaders (xs ++ ys) = fetchHeaders xs ++ fetchHeaders ys := by
  simp [fetchHeaders]

theorem local_bind {m : M σ α} {f : α → M σ β} (hm : Local m) (hf : ∀ a, Local (f a)) :
    Local (m >>= f) := by
  intro s
  show fetchHeaders (M.bind m f s).calls = []
  cases h : (m s).outcome with
  | ok a => rw [M.bind_ok h]; simp [fetchHeaders_append, hm s, hf a _]
  | throw e => rw [M.bind_throw h]; exact hm s
  | pending => rw [M.bind_pending h]; exact hm s

theorem local_pure (a : α) : Local (Pure.pure a : M σ α) := fun _ => rfl

theorem local_raise (e : String) : Local (M.raise e : M σ α) := fun _ => rfl

theorem local_get : Local (M.get : M σ σ) := fun _ => rfl

theorem local_modify (f : σ → σ) : Local (M.modify f) := fun _ => rfl

theorem local_call {c : Call} (h : fetchHeaders [c] = []) : Local (M.call c : M σ Unit) :=
  fun _ => h

theorem local_await {c : Call} (r : Except String α) (h : fetchHeaders [c] = []) :
    Local (M.await c r : M σ α) := by
  intro s; cases r <;> exact h

theorem keeps_bind {g : σ → γ} {m : M σ α} {f : α → M σ β} (hm : Keeps g m)
    (hf : ∀ a, Keeps g (f a)) : Keeps g (m >>= f) := by
  intro s
  show g (M.bind m f s).state = g s
  cases h : (m s).outcome with
  | ok a => rw [M.bind_ok h]; exact (hf a _).trans (hm s)
  | throw e => rw [M.bind_throw h]; exact hm s
  | pending => rw [M.bind_pending h]; exact hm s

theorem keeps_pure (g : σ → γ) (a : α) : Keeps g (Pure.pure a : M σ α) := fun _ => rfl

theorem keeps_await (g : σ → γ) (c : Call) (r : Except String α) :
    Keeps g (M.await c r : M σ α) := by
  intro s; cases r <;> rfl

end Header

theorem Bot.callOpenHandler_local (h : Nat → Except String Unit) :
    Local (Bot.callOpenHandler h) := by
  intro b
  unfold Bot.callOpenHandler
  cases h b.openCalls <;> rfl

theorem Bot.open_local : Local Bot.open := by
  intro b
  rcases Bot.open_cases b with h | h | h | h | ⟨f, h⟩ | ⟨f, e, h⟩ <;>
    simp [h.1, fetchHeaders]

theorem Bot.ensureEach_local (c : Collection) (ts : List String) : Local (Bot.ensureEach c ts) := by
  induction ts with
  | nil => exact local_pure _
  | cons t ts ih =>
    unfold Bot.ensureEach
    dsimp only
    split
    · exact local_bind (local_await _ rfl) (fun _ => ih)
    · exact local_bind (local_pure _) (fun _ => ih)

theorem Bot.onjoin_local (c : Collection) (config : Val) : Local (Bot.onjoin c config) := by
  unfold Bot.onjoin Bot._ensureTypes
  repeat (first
    | exact local_pure _ | exact local_raise _ | exact local_get | exact local_modify _
    | exact local_call rfl | exact local_await _ rfl | exact Bot.open_local
    | exact Bot.callOpenHandler_local _ | exact Bot.ensureEach_local _ _
    | apply local_bind | split | dsimp only | intro _)

theorem Bot.oncommand_local (w : World) (c : Option Collection) (command args : Val) :
    Local (Bot.oncommand w c command args) := by
  unfold Bot.oncommand
  repeat (first
    | exact local_pure _ | exact local_raise _ | exact local_get | exact local_modify _
    | exact local_call rfl | exact local_await _ rfl | exact Bot.open_local
    | apply local_bind | split | dsimp only | intro _)

theorem Bots.onBot_local {α : Type} (name : String) (bot : Bot) {m : M Bot α} (h : Local m) :
    Local (Bots.onBot name bot m) := fun _ => h bot

theorem Bots.onBot_keeps {α : Type} (name : String) (bot : Bot) (m : M Bot α) :
    Keeps Bots._sessionId (Bots.onBot name bot m) := fun _ => rfl

theorem Bots.step_local (w : World) (message : Message) (bot : Bot) :
    Local (Bots.step w message bot) := by
  unfold Bots.step
  repeat (first
    | exact local_pure _ | exact local_await _ rfl
    | exact Bots.onBot_local _ _ (Bot.onjoin_local _ _)
    | exact Bots.onBot_local _ _ (Bot.oncommand_local _ _ _ _)
    | exact Bots.onBot_local _ _ (fun b => by rw [Bot.onleave_eq]; rfl)
    | apply local_bind | split | dsimp only | intro _)

theorem Bots.step_keeps (w : World) (message : Message) (bot : Bot) :
    Keeps Bots._sessionId (Bots.step w message bot) := by
  unfold Bots.step
  repeat (first
    | exact keeps_pure _ _ | exact keeps_await _ _ _
    | exact Bots.onBot_keeps _ _ _
    | apply keeps_bind | split | dsimp only | intro _)

theorem Bots.getHeaders_congr {s t : Bots} (h : s._sessionId = t._sessionId) :
    s.getHeaders = t.getHeaders := by
  unfold Bots.getHeaders
  rw [h]

theorem fetchHeaders_catchCalls (w : World) (requestId : Val) (s : Bots) (m : String) :
    fetchHeaders (Bots.catchCalls w requestId s m) = [s.getHeaders] := by
  unfold Bots.catchCalls
  split <;> simp [fetchHeaders]

/-- Every control-channel call made while an event is handled carries the
headers of the registry the event found. -/
theorem Bots.onmessage_fetchHeaders (w : World) (message : Message) (s : Bots) :
    ∀ headers ∈ fetchHeaders (Bots._onmessage w message s).calls, headers = s.getHeaders := by
  cases hb : mapGet s.bots message.bot with
  | none => rw [Bots.onmessage_unknown hb]; simp [fetchHeaders]
  | some bot =>
    have hk : (Bots.step w message bot s).state.getHeaders = s.getHeaders :=
      Bots.getHeaders_congr (Bots.step_keeps w message bot s)
    by_cases hop : message.op = "join" ∨ message.op = "leave" ∨ message.op = "command"
    · cases h : (Bots.step w message bot s).outcome with
      | ok v =>
        rw [Bots.onmessage_of_ok hb hop h]
        simp only [fetchHeaders_append, Bots.step_local w message bot s, List.nil_append]
        split
        · simp [fetchHeaders, hk]
        · have hc := fetchHeaders_catchCalls w message.requestId
            (Bots.step w message bot s).state
          simp only [fetchHeaders] at hc
          simp [fetchHeaders, hc, hk]
      | throw m =>
        rw [Bots.onmessage_of_throw hb hop h]
        simp [fetchHeaders_append, Bots.step_local w message bot s, fetchHeaders_catchCalls, hk]
      | pending =>
        rw [Bots.onmessage_of_pending hb hop h]
        simp [Bots.step_local w message bot s]
    · simp only [not_or] at hop
      rw [Bots.onmessage_other_op hb hop.1 hop.2.1 hop.2.2]
      simp [fetchHeaders]


/-- C11, as stated, fails.  Bot "a" registers and is issued "t-a", bot "b"
registers and is issued "t-b"; the reply to a command addressed to "a" then
carries "t-b" in the session header. -/
theorem session_header_counterexample :
    registryA._sessionId = some "t-a"
    ∧ registryAB._sessionId = some "t-b"
    ∧ replies (Bots._onmessage tokenWorld (event "a" "command" none "r1") registryAB).calls
      = [⟨.str "r1", none, .obj [("x", .num 1)]⟩]
    ∧ fetchHeaders (Bots._onmessage tokenWorld (event "a" "command" none "r1") registryAB).calls
      = [[("X-Sonar-Bot-Session-Id", "t-b")]]
    ∧ [("X-Sonar-Bot-Session-Id", "t-b")] ≠ [("X-Sonar-Bot-Session-Id", "t-a")] :=
  ⟨rfl, rfl, rfl, rfl, by decide⟩

/-- C11 (amended).  A `Bots` instance holds one session id, that of the latest
successful registration, whichever bot registered: when a registration is
answered with the session id `t`, it succeeds, `t` is stored, and every
control-channel call made for any later event, to whichever bot it is
addressed, carries `t` in the session header. -/
theorem calls_carry_latest_session (w w2 : World) (name : String) (sp : BotSpec)
    (handlers : Handlers) (s : Bots) (res : Val) (t : String) (message : Message)
    (h : w.fetch "/bot/announce" "POST" s.getHeaders (.announce { sp with name := name })
      = .ok res)
    (ht : res.field "sessionId" = .str t) (hne : t ≠ "") :
    (Bots.register w name (.object sp) handlers s).outcome = .ok ()
    ∧ (Bots.register w name (.object sp) handlers s).state._sessionId = some t
    ∧ ∀ headers ∈ fetchHeaders
          (Bots._onmessage w2 message (Bots.register w name (.object sp) handlers s).state).calls,
        headers = [(SESSION_HEADER, t)] := by
  have hn : res.nullish = false := by
    cases res <;> first | rfl | simp [Val.field] at ht
  have hs : (Bots.register w name (.object sp) handlers s).state._sessionId = some t := by
    rw [Bots.register_announce_ok h hn]
    simp [ht, Val.asSessionId]
  refine ⟨by rw [Bots.register_announce_ok h hn], hs, ?_⟩
  intro headers hh
  rw [Bots.onmessage_fetchHeaders w2 message _ headers hh]
  simp [Bots.getHeaders, hs, truthy, hne]

/-- Witness of C11 (amended): the registration of "b" after "a", and a command
addressed to "a". -/
theorem calls_carry_latest_session_witness :
    (Bots.register tokenWorld "b" (.object ⟨"b", none⟩) echoHandlers registryA).outcome = .ok ()
    ∧ (Bots.register tokenWorld "b" (.object ⟨"b", none⟩) echoHandlers registryA).state._sessionId
      = some "t-b"
    ∧ ∀ headers ∈ fetchHeaders
          (Bots._onmessage tokenWorld (event "a" "command" none "r1")
            (Bots.register tokenWorld "b" (.object ⟨"b", none⟩) echoHandlers
              registryA).state).calls,
        headers = [(SESSION_HEADER, "t-b")] :=
  calls_carry_latest_session tokenWorld tokenWorld "b" ⟨"b", none⟩ echoHandlers registryA
    (.obj [("config", .obj []), ("sessionId", .str "t-b")]) "t-b"
    (event "a" "command" none "r1") rfl rfl (by decide)


/-! ## Joining -/

theorem Bot.onjoin_eq (c : Collection) (config : Val) :
    Bot.onjoin c config =
      M.bind (Bot._ensureTypes c) fun _ =>
        M.bind Bot.open fun _ => M.bind Bot.reopen fun _ => Bot.joinTail c config := by
  unfold Bot.onjoin Bot.reopen
  simp only [M.bind_eq, M.pure_eq]
  refine congrArg (M.bind _) (funext fun _ => congrArg (M.bind _) (funext fun _ => ?_))
  rw [M.bind_assoc]
  refine congrArg (M.bind _) (funext fun self => ?_)
  by_cases hc : (!self.opened) = true
  · cases hh : self.handlers.open with
    | none => simp only [hc, if_true, M.pure_bind]; rfl
    | some h => simp only [hc, if_true, M.bind_assoc]; rfl
  · simp only [hc, if_false, M.pure_bind]; rfl

theorem M.bind_ok_inv {σ α β : Type} {m : M σ α} {f : α → M σ β} {s : σ} {v : β}
    (h : (M.bind m f s).outcome = .ok v) :
    ∃ a, (m s).outcome = .ok a ∧ (f a (m s).state).outcome = .ok v := by
  cases hm : (m s).outcome with
  | ok a => rw [M.bind_ok hm] at h; exact ⟨a, rfl, h⟩
  | throw e => rw [M.bind_throw hm] at h; simp at h
  | pending => rw [M.bind_pending hm] at h; simp at h

theorem M.bind_state_of_ok {σ α β : Type} {m : M σ α} {f : α → M σ β} {s : σ} {a : α}
    (h : (m s).outcome = .ok a) : (M.bind m f s).state = (f a (m s).state).state := by
  rw [M.bind_ok h]

theorem M.bind_outcome_of_ok {σ α β : Type} {m : M σ α} {f : α → M σ β} {s : σ} {a : α}
    (h : (m s).outcome = .ok a) : (M.bind m f s).outcome = (f a (m s).state).outcome := by
  rw [M.bind_ok h]

theorem Bot.reopen_of_ready {b : Bot} (h : b.Ready) : Bot.reopen b = ⟨.ok (), b, []⟩ := by
  unfold Bot.reopen
  simp only [M.bind_eq, M.get_bind]
  rcases h with h | ⟨_, h⟩
  · simp [h, M.pure_eq]
  · rcases Bool.eq_false_or_eq_true b.opened with ho | ho
    · simp [ho, M.pure_eq]
    · simp [ho, h, M.pure_eq]

theorem Bot.open_of_ready {b : Bot} (h : b.Ready) : Bot.open b = ⟨.ok (), b, []⟩ := by
  rcases Bool.eq_false_or_eq_true b.opened with ho | ho
  · exact Bot.open_opened ho
  · rcases h with h | ⟨h, _⟩
    · rw [h] at ho; cases ho
    · rw [Bot.open_waiting ho h]; rfl

/-- After `await this.open()` and lines 188-191 have both succeeded the bot is
ready, and its sessions, handlers and spec are those it had. -/
theorem Bot.open_reopen_ok {b : Bot} (ho : (Bot.open b).outcome = .ok ())
    (hr : (Bot.reopen (Bot.open b).state).outcome = .ok ()) :
    (Bot.reopen (Bot.open b).state).state.Ready
    ∧ (Bot.reopen (Bot.open b).state).state.sessions = b.sessions
    ∧ (Bot.reopen (Bot.open b).state).state.handlers = b.handlers
    ∧ (Bot.reopen (Bot.open b).state).state.spec = b.spec := by
  rcases Bot.open_cases b with h | h | h | h | ⟨f, h⟩ | ⟨f, e, h⟩
  · rw [h.1, Bot.reopen_of_ready (Or.inl h.2)]
    exact ⟨Or.inl h.2, rfl, rfl, rfl⟩
  · rw [h.1] at hr ⊢
    cases hh : b.handlers.open with
    | none =>
      rw [Bot.reopen_of_ready (Or.inr ⟨h.2.2, hh⟩)]
      exact ⟨Or.inr ⟨h.2.2, hh⟩, rfl, rfl, rfl⟩
    | some g =>
      unfold Bot.reopen at hr ⊢
      simp only [M.bind_eq, M.get_bind, h.2.1, hh, Bool.not_false, if_true] at hr ⊢
      cases hg : g b.openCalls with
      | ok u =>
        simp [M.bind, Bot.callOpenHandler, hg, Bot.Ready]
      | error e =>
        simp [M.bind, Bot.callOpenHandler, hg] at hr
  · rw [h.1] at ho; cases ho
  · rw [h.1, Bot.reopen_of_ready (Or.inl rfl)]
    exact ⟨Or.inl rfl, rfl, rfl, rfl⟩
  · rw [h.1, Bot.reopen_of_ready (Or.inl rfl)]
    exact ⟨Or.inl rfl, rfl, rfl, rfl⟩
  · rw [h.1] at ho; cases ho

/-- What lines 192-200 of `Bot.onjoin` have done when they succeed: the handler
returned a session, which offers no `open` or whose `open` succeeded, and the
session is stored under the key of the collection. -/
theorem Bot.joinTail_ok_inv {c : Collection} {config : Val} {b : Bot}
    (h : (Bot.joinTail c config b).outcome = .ok ()) :
    ∃ session, b.handlers.onjoin c config = .ok session
      ∧ (session.open = none ∨ session.open = some (.ok ()))
      ∧ (Bot.joinTail c config b).state
        = { b with sessions := mapSet b.sessions c.key session } := by
  unfold Bot.joinTail at h ⊢
  simp only [M.bind_eq, M.get_bind] at h ⊢
  cases hj : b.handlers.onjoin c config with
  | error e => simp [hj, M.bind] at h
  | ok session =>
    refine ⟨session, rfl, ?_⟩
    cases hs : session.open with
    | none =>
      refine ⟨Or.inl rfl, ?_⟩
      cases hr : session.onrecord <;> simp [hj, hs, hr, M.bind, M.pure_eq]
    | some r =>
      cases r with
      | error e => simp [hj, hs, M.bind] at h
      | ok u =>
        refine ⟨Or.inr rfl, ?_⟩
        cases hr : session.onrecord <;> simp [hj, hs, hr, M.bind, M.pure_eq]

theorem Bot.joinTail_ok {c : Collection} {config : Val} {b : Bot} {session : Session}
    (hj : b.handlers.onjoin c config = .ok session)
    (hs : session.open = none ∨ session.open = some (.ok ())) :
    (Bot.joinTail c config b).outcome = .ok ()
    ∧ (Bot.joinTail c config b).state
        = { b with sessions := mapSet b.sessions c.key session } := by
  unfold Bot.joinTail
  simp only [M.bind_eq, M.get_bind]
  rcases hs with hs | hs <;> cases hr : session.onrecord <;>
    simp [hj, hs, hr, M.bind, M.pure_eq]

theorem Bot.ensureEach_outcome (c : Collection) (ts : List String) (b b2 : Bot) :
    (Bot.ensureEach c ts b).outcome = (Bot.ensureEach c ts b2).outcome := by
  induction ts with
  | nil => rfl
  | cons t ts ih =>
    unfold Bot.ensureEach
    dsimp only
    split
    · show (M.bind _ _ b).outcome = (M.bind _ _ b2).outcome
      cases hp : c.putType t with
      | ok u =>
        rw [M.bind_ok (a := u) (by simp [hp]), M.bind_ok (a := u) (by simp [hp])]
        simpa [hp] using ih
      | error e =>
        rw [M.bind_throw (e := e) (by simp [hp]), M.bind_throw (e := e) (by simp [hp])]
    · show (M.bind _ _ b).outcome = (M.bind _ _ b2).outcome
      rw [M.bind_ok (a := ()) rfl, M.bind_ok (a := ()) rfl]
      simpa using ih

theorem Bot.ensureTypes_outcome (c : Collection) {b b2 : Bot} (h : b2.spec = b.spec) :
    (Bot._ensureTypes c b2).outcome = (Bot._ensureTypes c b).outcome := by
  unfold Bot._ensureTypes
  show (M.bind M.get _ b2).outcome = (M.bind M.get _ b).outcome
  rw [M.get_bind, M.get_bind, h]
  cases b.spec.types with
  | none => rfl
  | some types => exact Bot.ensureEach_outcome c types b2 b

/-- What a successful `Bot.onjoin` has done. -/
theorem Bot.onjoin_ok_inv {c : Collection} {config : Val} {b : Bot}
    (h : (Bot.onjoin c config b).outcome = .ok ()) :
    (Bot._ensureTypes c b).outcome = .ok ()
    ∧ ∃ session, b.handlers.onjoin c config = .ok session
      ∧ (session.open = none ∨ session.open = some (.ok ()))
      ∧ (Bot.onjoin c config b).state.sessions = mapSet b.sessions c.key session
      ∧ (Bot.onjoin c config b).state.handlers = b.handlers
      ∧ (Bot.onjoin c config b).state.spec = b.spec
      ∧ (Bot.onjoin c config b).state.Ready := by
  rw [Bot.onjoin_eq] at h ⊢
  obtain ⟨_, he, h1⟩ := M.bind_ok_inv h
  rw [M.bind_state_of_ok he]
  rw [Bot.ensureTypes_state] at h1 ⊢
  obtain ⟨_, ho, h2⟩ := M.bind_ok_inv h1
  rw [M.bind_state_of_ok ho]
  obtain ⟨_, hr, h3⟩ := M.bind_ok_inv h2
  rw [M.bind_state_of_ok hr]
  obtain ⟨hready, hsess, hhand, hspec⟩ := Bot.open_reopen_ok ho hr
  obtain ⟨session, hj, hs, hst⟩ := Bot.joinTail_ok_inv h3
  refine ⟨he, session, by rw [← hhand]; exact hj, hs, ?_, ?_, ?_, ?_⟩
  · rw [hst, ← hsess]
  · rw [hst]; exact hhand
  · rw [hst]; exact hspec
  · rw [hst]; exact hready

/-- On a ready bot, `Bot.onjoin` succeeds as soon as the types, the handler and
the session do, and stores the session under the key of the collection. -/
theorem Bot.onjoin_of_ready {c : Collection} {config : Val} {b : Bot} {session : Session}
    (hb : b.Ready) (he : (Bot._ensureTypes c b).outcome = .ok ())
    (hj : b.handlers.onjoin c config = .ok session)
    (hs : session.open = none ∨ session.open = some (.ok ())) :
    (Bot.onjoin c config b).outcome = .ok ()
    ∧ (Bot.onjoin c config b).state.sessions = mapSet b.sessions c.key session := by
  have ho : (Bot.open b).outcome = .ok () := by rw [Bot.open_of_ready hb]
  have hr : (Bot.reopen (Bot.open b).state).outcome = .ok () := by
    rw [Bot.open_of_ready hb, Bot.reopen_of_ready hb]
  have hst : (Bot.reopen (Bot.open b).state).state = b := by
    rw [Bot.open_of_ready hb, Bot.reopen_of_ready hb]
  rw [Bot.onjoin_eq, M.bind_outcome_of_ok he, M.bind_state_of_ok he, Bot.ensureTypes_state,
    M.bind_outcome_of_ok ho, M.bind_state_of_ok ho, M.bind_outcome_of_ok hr,
    M.bind_state_of_ok hr, hst]
  obtain ⟨h1, h2⟩ := Bot.joinTail_ok (b := b) hj hs
  exact ⟨h1, by rw [h2]⟩

theorem mapGet_mapSet_ne {β : Type} (l : List (String × β)) {k k2 : String} (v : β)
    (h : k2 ≠ k) : mapGet (mapSet l k v) k2 = mapGet l k2 := by
  induction l with
  | nil => simp [mapSet, mapGet, Ne.symm h]
  | cons p rest ih =>
    rcases p with ⟨k1, v1⟩
    unfold mapSet
    by_cases hk : k1 = k
    · subst hk
      simp [mapGet, Ne.symm h]
    · by_cases hk2 : k1 = k2
      · subst hk2
        simp [hk, mapGet]
      · simp [hk, hk2, mapGet, ih]

theorem Bots.step_join_ok {w : World} {message : Message} {s : Bots} {bot : Bot}
    {c : Collection} (hop : message.op = "join")
    (hc : w.openCollection message.data.collection = .ok c)
    (hj : (Bot.onjoin c message.data.config bot).outcome = .ok ()) :
    (Bots.step w message bot s).outcome = .ok .undefined
    ∧ (Bots.step w message bot s).state.bots
      = mapSet s.bots message.bot (Bot.onjoin c message.data.config bot).state := by
  rw [Bots.step_join hop, M.bind_ok (a := c) (by simp [hc])]
  simp only [hc, M.await_ok]
  rw [M.bind_ok (a := ()) (by simpa [Bots.onBot] using hj)]
  simp [Bots.onBot]

/-- C14.  For a registered bot that holds at most one session for the key of
the collection `c` to which the event's `data.collection` resolves, and a join
event that succeeds: afterwards the bot's sessions map holds exactly one entry
under `c.key`, the session returned by `handlers.onjoin`, and the entries under
every other key (the name used by the event, if it differs) are untouched.
The same join sent again succeeds as well, is answered with the success reply,
and leaves exactly one entry under `c.key`, holding the session returned by
`handlers.onjoin` for the second join. -/
theorem join_stores_session_under_key (w : World) (message : Message) (s : Bots) (bot : Bot)
    (c : Collection) (hb : mapGet s.bots message.bot = some bot) (hop : message.op = "join")
    (hc : w.openCollection message.data.collection = .ok c)
    (hj : (Bot.onjoin c message.data.config bot).outcome = .ok ())
    (hone : mapCount bot.sessions c.key ≤ 1) :
    ∃ session b1 b2,
      bot.handlers.onjoin c message.data.config = .ok session
      ∧ mapGet (Bots._onmessage w message s).state.bots message.bot = some b1
      ∧ mapGet b1.sessions c.key = some session
      ∧ mapCount b1.sessions c.key = 1
      ∧ (∀ k, k ≠ c.key → mapGet b1.sessions k = mapGet bot.sessions k)
      ∧ b1.handlers.onjoin c message.data.config = .ok session
      ∧ (Bot.onjoin c message.data.config b1).outcome = .ok ()
      ∧ mapGet (Bots._onmessage w message (Bots._onmessage w message s).state).state.bots
          message.bot = some b2
      ∧ mapGet b2.sessions c.key = some session
      ∧ mapCount b2.sessions c.key = 1
      ∧ (replies (Bots._onmessage w message (Bots._onmessage w message s).state).calls
          = [⟨message.requestId, none, .undefined⟩]
        ∨ ∃ e headers,
          replies (Bots._onmessage w message (Bots._onmessage w message s).state).calls
              = [⟨message.requestId, none, .undefined⟩,
                  ⟨message.requestId, some e, .undefined⟩]
            ∧ w.fetch "/bot/reply" "POST" headers
                (.reply ⟨message.requestId, none, .undefined⟩) = .error e) := by
  have hop3 : message.op = "join" ∨ message.op = "leave" ∨ message.op = "command" :=
    Or.inl hop
  obtain ⟨he, session, hh, hs, hsess, hhand, hspec, hready⟩ := Bot.onjoin_ok_inv hj
  obtain ⟨hok1, hbots1⟩ := Bots.step_join_ok (w := w) (s := s) hop hc hj
  have hst1 : (Bots._onmessage w message s).state.bots
      = mapSet s.bots message.bot (Bot.onjoin c message.data.config bot).state := by
    rw [Bots.onmessage_of_ok hb hop3 hok1]; exact hbots1
  have hb1 : mapGet (Bots._onmessage w message s).state.bots message.bot
      = some (Bot.onjoin c message.data.config bot).state := by
    rw [hst1, mapGet_mapSet_self]
  have hh1 : (Bot.onjoin c message.data.config bot).state.handlers.onjoin c message.data.config
      = .ok session := by rw [hhand]; exact hh
  have he1 : (Bot._ensureTypes c (Bot.onjoin c message.data.config bot).state).outcome
      = .ok () := by rw [Bot.ensureTypes_outcome c hspec]; exact he
  obtain ⟨hj2, hsess2⟩ := Bot.onjoin_of_ready hready he1 hh1 hs
  have hone1 : mapCount (Bot.onjoin c message.data.config bot).state.sessions c.key = 1 := by
    rw [hsess]; exact mapCount_mapSet_of_le session hone
  obtain ⟨hok2, hbots2⟩ :=
    Bots.step_join_ok (w := w) (s := (Bots._onmessage w message s).state) hop hc hj2
  refine ⟨session, (Bot.onjoin c message.data.config bot).state,
    (Bot.onjoin c message.data.config (Bot.onjoin c message.data.config bot).state).state,
    hh, hb1, ?_, hone1, ?_, hh1, hj2, ?_, ?_, ?_, Bots.replies_of_ok hb1 hop3 hok2⟩
  · rw [hsess, mapGet_mapSet_self]
  · intro k hk
    rw [hsess, mapGet_mapSet_ne _ _ hk]
  · rw [Bots.onmessage_of_ok hb1 hop3 hok2, hbots2, mapGet_mapSet_self]
  · rw [hsess2, mapGet_mapSet_self]
  · rw [hsess2]; exact mapCount_mapSet_of_le session (by omega)

/-- Witness of C14: "echo" joins "c1" twice on the registry of "echo" and
"flaky".  The session is stored under the key "k1", not under the name "c1",
and the second join leaves one entry. -/
theorem join_stores_session_under_key_witness :
    (Bot.onjoin c1 (event "echo" "join" (some "c1") "r2").data.config
        (Bot.new ⟨"echo", none⟩ .undefined echoHandlers)).outcome = .ok ()
    ∧ mapCount (Bot.new ⟨"echo", none⟩ .undefined echoHandlers).sessions c1.key ≤ 1
    ∧ (∃ session b1 b2,
        echoHandlers.onjoin c1 .undefined = .ok session
        ∧ mapGet (Bots._onmessage world (event "echo" "join" (some "c1") "r2") registry).state.bots
            "echo" = some b1
        ∧ mapGet b1.sessions "k1" = some session
        ∧ mapCount b1.sessions "k1" = 1
        ∧ mapGet b1.sessions "c1" = none
        ∧ mapGet (Bots._onmessage world (event "echo" "join" (some "c1") "r2")
            (Bots._onmessage world (event "echo" "join" (some "c1") "r2") registry).state).state.bots
            "echo" = some b2
        ∧ mapGet b2.sessions "k1" = some session
        ∧ mapCount b2.sessions "k1" = 1)
    ∧ replies (Bots._onmessage world (event "echo" "join" (some "c1") "r2")
        (Bots._onmessage world (event "echo" "join" (some "c1") "r2") registry).state).calls
      = [⟨.str "r2", none, .undefined⟩] := by
  refine ⟨rfl, by decide, ?_, rfl⟩
  obtain ⟨session, b1, b2, h1, h2, h3, h4, h5, _, _, h8, h9, h10, _⟩ :=
    join_stores_session_under_key world (event "echo" "join" (some "c1") "r2") registry
      (Bot.new ⟨"echo", none⟩ .undefined echoHandlers) c1 rfl rfl rfl rfl (by decide)
  exact ⟨session, b1, b2, h1, h2, h3, h4, (h5 "c1" (by decide)).trans rfl, h8, h9, h10⟩


end Sonar
